import Mathlib

/-
  Verification development for the xclient X11 wire-protocol client
  (src/main.rs).  The Rust source is shallowly embedded: byte buffers
  are `List Nat` (each entry a byte value), machine integers are `Nat`
  with explicit `% 2 ^ 32` where the source can wrap, and fallible or
  panicking code returns `Option`.
-/

/-! ### Wire primitives (src/main.rs: put_u16_le / put_u32_le helpers, pad) -/

/-- Little-endian encoding of a 16-bit value, as produced by `put_u16_le`. -/
def u16le (v : Nat) : List Nat := [v % 256, v / 256 % 256]

/-- Little-endian encoding of a 32-bit value, as produced by `put_u32_le`. -/
def u32le (v : Nat) : List Nat :=
  [v % 256, v / 256 % 256, v / 65536 % 256, v / 16777216 % 256]

/-- Little-endian encoding of a signed 16-bit value (`put_i16_le`), two's
complement; wrapping (release-mode) semantics for out-of-range values. -/
def i16le (v : Int) : List Nat := u16le (v % 65536).toNat

/-- Source: `const fn pad(len: usize) -> usize { (4 - (len % 4)) % 4 }`. -/
def pad (len : Nat) : Nat := (4 - len % 4) % 4

/-- Little-endian decode of the two bytes at offset `i` of a buffer. -/
def le16at (l : List Nat) (i : Nat) : Nat := l.getD i 0 + 256 * l.getD (i + 1) 0

/-- Little-endian decode of the four bytes at offset `i` of a buffer. -/
def le32at (l : List Nat) (i : Nat) : Nat :=
  l.getD i 0 + 256 * l.getD (i + 1) 0 + 65536 * l.getD (i + 2) 0 +
    16777216 * l.getD (i + 3) 0

/-! ### Resource-ID allocator (src/main.rs lines 623-655) -/

/-- State of `struct IdGenerator { last, max, base, inc : u32 }`. -/
structure IdGenerator where
  last : Nat
  max : Nat
  base : Nat
  inc : Nat
deriving DecidableEq

/-- Source expression `mask & (!mask + 1)` on `u32`: `!mask` is
`2^32 - 1 - mask` and the `+ 1` wraps modulo `2^32` (it only wraps for
`mask = 0`). -/
def idInc (mask : Nat) : Nat := mask &&& ((2 ^ 32 - 1 - mask + 1) % 2 ^ 32)

/-- Source: `IdGenerator::new(base, mask)` sets
`last = 0, max = mask, inc = mask & (!mask + 1)`. -/
def IdGenerator.new (base mask : Nat) : IdGenerator :=
  { last := 0, max := mask, base := base, inc := idInc mask }

/-- Source: `<IdGenerator as Iterator>::next`; returns `None` when
`last == max`, otherwise advances `last` by `inc` (u32 arithmetic) and
returns `last | base`.  The second component is the post-call state. -/
def IdGenerator.next (g : IdGenerator) : Option Nat × IdGenerator :=
  if g.last = g.max then (none, g)
  else
    let l := (g.last + g.inc) % 2 ^ 32
    (some (l ||| g.base), { g with last := l })

/-- State of the generator after `j` calls to `next`. -/
def IdGenerator.iter (g : IdGenerator) : Nat → IdGenerator
  | 0 => g
  | j + 1 => (g.iter j).next.2

/-- Value returned by the `(j+1)`-st call to `next` (0-indexed). -/
def IdGenerator.output (g : IdGenerator) (j : Nat) : Option Nat := ((g.iter j).next).1

/-! ### Opcodes, protocol data model (src/main.rs lines 23-56, 85-105, 138-166, 211-264) -/

/-- Request opcodes (`enum Opcodes`). -/
inductive Opcodes where
  | CreateWindow
  | ChangeWindowAttributes
  | GetWindowAttributes
  | DestroyWindow
  | MapWindow
  | MapSubwindows
  | UnmapWindow
  | UnmapSubwindows
  | ConfigureWindow
  | CirculateWindow
  | GetGeometry
  | QueryTree
  | SetInputFocus
  | GetInputFocus
  | QueryKeymap
  | OpenFont
  | CloseFont
  | QueryFont
  | ListFonts
  | ListFontsWithInfo
  | CreatePixmap
  | FreePixmap
  | CreateGC
  | ChangeGC
  | CopyGC
  | FreeGC
  | ImageText8
  | ImageText16
  | QueryExtension
  | ListExtensions
deriving DecidableEq

/-- Numeric value of each opcode (the `#[repr(u8)]` discriminants). -/
def Opcodes.code : Opcodes → Nat
  | .CreateWindow => 1
  | .ChangeWindowAttributes => 2
  | .GetWindowAttributes => 3
  | .DestroyWindow => 4
  | .MapWindow => 8
  | .MapSubwindows => 9
  | .UnmapWindow => 10
  | .UnmapSubwindows => 11
  | .ConfigureWindow => 12
  | .CirculateWindow => 13
  | .GetGeometry => 14
  | .QueryTree => 15
  | .SetInputFocus => 42
  | .GetInputFocus => 43
  | .QueryKeymap => 44
  | .OpenFont => 45
  | .CloseFont => 46
  | .QueryFont => 47
  | .ListFonts => 49
  | .ListFontsWithInfo => 50
  | .CreatePixmap => 53
  | .FreePixmap => 54
  | .CreateGC => 55
  | .ChangeGC => 56
  | .CopyGC => 57
  | .FreeGC => 60
  | .ImageText8 => 76
  | .ImageText16 => 77
  | .QueryExtension => 98
  | .ListExtensions => 99

/-- Error codes of server Error frames (`enum ErrorCode`, values 1..17). -/
inductive ErrorCode where
  | Request
  | Value
  | Window
  | Pixmap
  | Atom
  | Cursor
  | Font
  | Match
  | Drawable
  | Access
  | Alloc
  | Colormap
  | GContext
  | IDChoice
  | Name
  | Length
  | Implementation
deriving DecidableEq

/-- `ErrorCode::from_u8` (derived `FromPrimitive`): valid for 1..17 only. -/
def ErrorCode.fromU8 : Nat → Option ErrorCode
  | 1 => some .Request
  | 2 => some .Value
  | 3 => some .Window
  | 4 => some .Pixmap
  | 5 => some .Atom
  | 6 => some .Cursor
  | 7 => some .Font
  | 8 => some .Match
  | 9 => some .Drawable
  | 10 => some .Access
  | 11 => some .Alloc
  | 12 => some .Colormap
  | 13 => some .GContext
  | 14 => some .IDChoice
  | 15 => some .Name
  | 16 => some .Length
  | 17 => some .Implementation
  | _ => none

/-- Event subtypes (`enum Events`, first byte values 2..20 and 30..34). -/
inductive Events where
  | KeyPress
  | KeyRelease
  | ButtonPress
  | ButtonRelease
  | MotionNotify
  | EnterNotify
  | LeaveNotify
  | FocusIn
  | FocusOut
  | KeymapNotify
  | Expose
  | GraphicsExposure
  | NoExposure
  | VisibilityNotify
  | CreateNotify
  | DestroyNotify
  | UnmapNotify
  | MapNotify
  | MapRequest
  | SelectionRequest
  | SelectionNotify
  | ColormapNotify
  | ClientMessage
  | MappingNotify
deriving DecidableEq

/-- `Events::from_u8` (derived `FromPrimitive`). -/
def Events.fromU8 : Nat → Option Events
  | 2 => some .KeyPress
  | 3 => some .KeyRelease
  | 4 => some .ButtonPress
  | 5 => some .ButtonRelease
  | 6 => some .MotionNotify
  | 7 => some .EnterNotify
  | 8 => some .LeaveNotify
  | 9 => some .FocusIn
  | 10 => some .FocusOut
  | 11 => some .KeymapNotify
  | 12 => some .Expose
  | 13 => some .GraphicsExposure
  | 14 => some .NoExposure
  | 15 => some .VisibilityNotify
  | 16 => some .CreateNotify
  | 17 => some .DestroyNotify
  | 18 => some .UnmapNotify
  | 19 => some .MapNotify
  | 20 => some .MapRequest
  | 30 => some .SelectionRequest
  | 31 => some .SelectionNotify
  | 32 => some .ColormapNotify
  | 33 => some .ClientMessage
  | 34 => some .MappingNotify
  | _ => none

/-- The event subtypes that have a decode arm in `decode_event` (all other
subtypes fall into the panicking catch-all arm). -/
def Events.hasDecodePath : Events → Bool
  | .KeyPress | .KeyRelease | .ButtonPress | .ButtonRelease
  | .EnterNotify | .LeaveNotify | .MappingNotify | .Expose => true
  | _ => false

/-- `enum BackingStore`. -/
inductive BackingStore where
  | Never
  | WhenMapped
  | Always
deriving DecidableEq

/-- `enum Class` of visual types (named `VisualClass` here). -/
inductive VisualClass where
  | StaticGray
  | GrayScale
  | StaticColor
  | PseudoColor
  | TrueColor
  | DirectColor
deriving DecidableEq

/-- `struct VisualType` (the source field `class` is `visualClass` here). -/
structure VisualType where
  visual_id : Nat
  visualClass : VisualClass
  bits_per_rgb_value : Nat
  colormap_entries : Nat
  red_mask : Nat
  green_mask : Nat
  blue_mask : Nat
deriving DecidableEq

/-- `struct Depth`. -/
structure Depth where
  depth : Nat
  number_visual_types : Nat
  visuals : List VisualType
deriving DecidableEq

/-- `struct Screen`; `current_input_masks` is the raw `u32` bit set. -/
structure Screen where
  window : Nat
  default_colormap : Nat
  white_pixel : Nat
  black_pixel : Nat
  current_input_masks : Nat
  width_pixels : Nat
  height_pixels : Nat
  width_mm : Nat
  height_mm : Nat
  min_installed_maps : Nat
  max_installed_maps : Nat
  root_visual : Nat
  backing_stores : BackingStore
  save_unders : Bool
  root_depth : Nat
  number_depths_in_allowed_depths : Nat
  allowed_depths : List Depth
deriving DecidableEq

/-- `struct Connection`. -/
structure Connection where
  resource_id_base : Nat
  resource_id_mask : Nat
deriving DecidableEq

/-- `enum StackModes`. -/
inductive StackModes where
  | Above
  | Below
  | TopIf
  | BottomIf
  | Opposite
deriving DecidableEq

/-- `enum ConfigureWindowCommands`. -/
inductive ConfigureWindowCommands where
  | X (v : Int)
  | Y (v : Int)
  | Width (v : Nat)
  | Height (v : Nat)
  | BorderWidth (v : Nat)
  | Sibling (w : Nat)
  | StackMode (m : StackModes)

/-! ### Request encoders (src/main.rs lines 266-544, 657-739).  Each encoder
returns the exact byte sequence it appends to the output buffer; encoders
that can panic (id exhaustion, `try_into().unwrap()` overflow) return
`Option`. -/

/-- `create_window_request` (lines 266-331).  Emits the fixed header with
request length `8 + 2`, the freshly allocated window id, the screen's root
as parent, constant geometry, the screen's root visual, the bitmask
`BackgroundPixel | EventMask` and the two corresponding values.  Returns
`none` when the id generator is exhausted (source panics). -/
def create_window_request (connection : Connection) (screen : Screen)
    (g : IdGenerator) : Option (List Nat × Nat × IdGenerator) :=
  match g.next with
  | (some id, g') =>
      some ([Opcodes.CreateWindow.code, 0] ++ u16le (8 + 2) ++ u32le id
        ++ u32le screen.window
        ++ i16le 200 ++ i16le 200
        ++ u16le 100 ++ u16le 100
        ++ u16le 4 ++ u16le 0
        ++ u32le screen.root_visual
        ++ u32le (0x2 ||| 0x800)
        ++ u32le screen.white_pixel
        ++ u32le (0x1 ||| 0x2 ||| 0x4 ||| 0x8 ||| 0x10 ||| 0x20 ||| 0x8000)
        , id, g')
  | (none, _) => none

/-- `destroy_window_request` (lines 333-338). -/
def destroy_window_request (wid : Nat) : List Nat :=
  [Opcodes.DestroyWindow.code, 0] ++ u16le 2 ++ u32le wid

/-- `get_window_attributes_request` (lines 340-345). -/
def get_window_attributes_request (wid : Nat) : List Nat :=
  [Opcodes.GetWindowAttributes.code, 0] ++ u16le 2 ++ u32le wid

/-- `map_window_request` (lines 372-377). -/
def map_window_request (window_id : Nat) : List Nat :=
  [Opcodes.MapWindow.code, 0] ++ u16le 2 ++ u32le window_id

/-- `unmap_window_request` (lines 379-384). -/
def unmap_window_request (window_id : Nat) : List Nat :=
  [Opcodes.UnmapWindow.code, 0] ++ u16le 2 ++ u32le window_id

/-- `configure_window` (lines 405-434): writes request length `3 + n` for
`n` commands but always emits the two hard-coded X/Y values (20 bytes);
`none` models the `try_into().unwrap()` panic when `3 + n` exceeds `u16`. -/
def configure_window (window_id : Nat) (commands : List ConfigureWindowCommands)
    (x y : Int) : Option (List Nat) :=
  let n := commands.length
  if 3 + n ≤ 65535 then
    some ([Opcodes.ConfigureWindow.code, 0] ++ u16le (3 + n) ++ u32le window_id
      ++ u16le (0x1 ||| 0x2) ++ u16le 0
      ++ i16le (200 + x) ++ u16le 0 ++ i16le (200 + y) ++ u16le 0)
  else none

/-- `create_gc` (lines 436-466): request length `4 + 3`, bitmask
`Foreground | Background | Font` and the three values. -/
def create_gc (connection : Connection) (window_id font_id : Nat)
    (g : IdGenerator) : Option (List Nat × Nat × IdGenerator) :=
  match g.next with
  | (some id, g') =>
      some ([Opcodes.CreateGC.code, 0] ++ u16le (4 + 3) ++ u32le id
        ++ u32le window_id
        ++ u32le (0x4 ||| 0x8 ||| 0x4000)
        ++ u32le 0xFF00FF00 ++ u32le 0xFF000000 ++ u32le font_id
        , id, g')
  | (none, _) => none

/-- `free_gc` (lines 468-473). -/
def free_gc (gc_id : Nat) : List Nat :=
  [Opcodes.FreeGC.code, 0] ++ u16le 2 ++ u32le gc_id

/-- `list_fonts` (lines 475-488): one-byte pattern `*` plus padding. -/
def list_fonts : List Nat :=
  let pattern_length := 1
  let p := pad pattern_length
  [Opcodes.ListFonts.code, 0] ++ u16le (2 + (pattern_length + p) / 4)
    ++ u16le 1000 ++ u16le pattern_length ++ [42] ++ List.replicate p 0

/-- `query_extension` (lines 490-500); `none` models the
`try_into().unwrap()` panics for oversized names. -/
def query_extension (extension_name : List Nat) : Option (List Nat) :=
  let n := extension_name.length
  let p := pad n
  if 2 + (n + p) / 4 <= 65535 ∧ n ≤ 65535 then
    some ([Opcodes.QueryExtension.code, 0] ++ u16le (2 + (n + p) / 4)
      ++ u16le n ++ u16le 0 ++ extension_name ++ List.replicate p 0)
  else none

/-- `list_extensions` (lines 512-516). -/
def list_extensions : List Nat :=
  [Opcodes.ListExtensions.code, 0] ++ u16le 1

/-- `open_font` (lines 518-531): opens the 5-byte font name `fixed`. -/
def open_font (g : IdGenerator) : Option (List Nat × Nat × IdGenerator) :=
  let font_name_length := 5
  match g.next with
  | (some font_id, g') =>
      some ([Opcodes.OpenFont.code, 0]
        ++ u16le (3 + (font_name_length + pad font_name_length) / 4)
        ++ u32le font_id ++ u16le font_name_length ++ u16le 0
        ++ [102, 105, 120, 101, 100]
        ++ List.replicate (pad font_name_length) 0, font_id, g')
  | (none, _) => none

/-- `image_text_8` (lines 533-544): draws the 11-byte string
`Hello World`; the final `advance_mut(pad ..)` appends indeterminate
padding bytes, modelled as zeros (only their count matters). -/
def image_text_8 (window_id gc_id x y : Nat) : List Nat :=
  let text_name_length := 11
  [Opcodes.ImageText8.code, text_name_length]
    ++ u16le (4 + (text_name_length + pad text_name_length) / 4)
    ++ u32le window_id ++ u32le gc_id ++ u16le x ++ u16le y
    ++ [72, 101, 108, 108, 111, 32, 87, 111, 114, 108, 100]
    ++ List.replicate (pad text_name_length) 0

/-- `struct ShapeExtension` (lines 673-739). -/
structure ShapeExtension where
  major_opcode : Nat
deriving DecidableEq

/-- `ShapeExtension::query_version` (lines 682-686). -/
def ShapeExtension.query_version (s : ShapeExtension) : List Nat :=
  [s.major_opcode, 0] ++ u16le 1

/-- `ShapeExtension::rectangles` (lines 688-700): note the request-length
field is written as `0`; the `advance_mut(1)` byte is modelled as zero. -/
def ShapeExtension.rectangles (s : ShapeExtension)
    (window_id x_offset y_offset : Nat) : List Nat :=
  [s.major_opcode, 1] ++ u16le 0
    ++ [0, 1, 0]
    ++ [0]
    ++ u32le window_id ++ u16le x_offset ++ u16le y_offset

/-- `ShapeExtension::mask` (lines 702-726); the `advance_mut(2)` bytes are
modelled as zeros. -/
def ShapeExtension.mask (s : ShapeExtension)
    (window_id x_offset y_offset : Nat) (pixmap_id : Option Nat) : List Nat :=
  [s.major_opcode, 2] ++ u16le 5
    ++ [0, 1]
    ++ [0, 0]
    ++ u32le window_id ++ u16le x_offset ++ u16le y_offset
    ++ (match pixmap_id with
        | some p => u32le p
        | none => u32le 0)

/-- Decoded request-length field: little-endian `u16` at bytes 2-3. -/
def reqLenField (bytes : List Nat) : Nat := le16at bytes 2

/-! ### Buffer reading primitives mirroring `bytes::Buf` -/

/-- `get_u8`: `none` when the buffer is empty (source panics). -/
def getU8 : List Nat → Option (Nat × List Nat)
  | [] => none
  | b :: rest => some (b, rest)

/-- `get_u16_le`. -/
def getU16le (l : List Nat) : Option (Nat × List Nat) := do
  let (b0, l1) ← getU8 l
  let (b1, l2) ← getU8 l1
  some (b0 + 256 * b1, l2)

/-- `get_u32_le`. -/
def getU32le (l : List Nat) : Option (Nat × List Nat) := do
  let (b0, l1) ← getU8 l
  let (b1, l2) ← getU8 l1
  let (b2, l3) ← getU8 l2
  let (b3, l4) ← getU8 l3
  some (b0 + 256 * b1 + 65536 * b2 + 16777216 * b3, l4)

/-- `Buf::advance(n)`: `none` when fewer than `n` bytes remain (panics). -/
def bufAdvance (n : Nat) (l : List Nat) : Option (List Nat) :=
  if n ≤ l.length then some (l.drop n) else none

/-! ### Inbound classifier (src/main.rs lines 546-621 and 931-1039) -/

/-- Body of the KeyPress/KeyRelease arm of `decode_event` (detail byte,
sequence number, timestamp, then `advance(24)`). -/
def decodeKeyEvent (buf : List Nat) : Option (List Nat) := do
  let (_detail, b1) ← getU8 buf
  let (_seq, b2) ← getU16le b1
  let (_time, b3) ← getU32le b2
  bufAdvance 24 b3

/-- Body of the ButtonPress/ButtonRelease arm of `decode_event` (identical
layout to the key arm in the source). -/
def decodeButtonEvent (buf : List Nat) : Option (List Nat) := do
  let (_detail, b1) ← getU8 buf
  let (_seq, b2) ← getU16le b1
  let (_time, b3) ← getU32le b2
  bufAdvance 24 b3

/-- First half of the EnterNotify/LeaveNotify arm of `decode_event`:
detail, sequence number, timestamp and the three window ids. -/
def decodeEnterLeaveWindows (buf : List Nat) : Option (List Nat) := do
  let (_detail, b1) ← getU8 buf
  let (_seq, b2) ← getU16le b1
  let (_time, b3) ← getU32le b2
  let (_root_window, b4) ← getU32le b3
  let (_event_window, b5) ← getU32le b4
  let (_child_window, b6) ← getU32le b5
  some b6

/-- Body of the EnterNotify/LeaveNotify arm of `decode_event`: windows,
then coordinates, state, mode and the same-screen/focus byte. -/
def decodeEnterLeaveEvent (buf : List Nat) : Option (List Nat) := do
  let b6 ← decodeEnterLeaveWindows buf
  let (_root_x, b7) ← getU16le b6
  let (_root_y, b8) ← getU16le b7
  let (_event_x, b9) ← getU16le b8
  let (_event_y, b10) ← getU16le b9
  let (_state, b11) ← getU16le b10
  let (_mode, b12) ← getU8 b11
  let (_same_screen_focus, b13) ← getU8 b12
  some b13

/-- Body of the MappingNotify arm of `decode_event`. -/
def decodeMappingNotifyEvent (buf : List Nat) : Option (List Nat) := do
  let b1 ← bufAdvance 1 buf
  let (_seq, b2) ← getU16le b1
  let (_request_kind, b3) ← getU8 b2
  let (_key_code, b4) ← getU8 b3
  let (_count, b5) ← getU8 b4
  bufAdvance 25 b5

/-- Body of the Expose arm of `decode_event`. -/
def decodeExposeEvent (buf : List Nat) : Option (List Nat) := do
  let b1 ← bufAdvance 1 buf
  let (_seq, b2) ← getU16le b1
  let (_window, b3) ← getU32le b2
  let (_x, b4) ← getU16le b3
  let (_y, b5) ← getU16le b4
  let (_width, b6) ← getU16le b5
  let (_height, b7) ← getU16le b6
  bufAdvance 16 b7

/-- `decode_event` (lines 546-621): with fewer than 31 bytes remaining it
returns at once consuming nothing; otherwise each handled subtype consumes
exactly 31 bytes; subtypes without a decode arm panic (`none`). -/
def decode_event (event : Events) (buf : List Nat) : Option (List Nat) :=
  if buf.length < 31 then some buf
  else
    match event with
    | .KeyPress | .KeyRelease => decodeKeyEvent buf
    | .ButtonPress | .ButtonRelease => decodeButtonEvent buf
    | .EnterNotify | .LeaveNotify => decodeEnterLeaveEvent buf
    | .MappingNotify => decodeMappingNotifyEvent buf
    | .Expose => decodeExposeEvent buf
    | _ => none

/-- Decoded fields of a server Error frame. -/
structure XError where
  code : ErrorCode
  sequence_number : Nat
  bad_resource_id : Option Nat
  minor_opcode : Nat
  major_opcode : Nat
deriving DecidableEq

/-- Error branch of the reader loop (lines 944-968), applied to the buffer
after the leading `0` byte was consumed: error-code byte (`expect` panics
on an invalid code), sequence number, a 4-byte bad-resource-id for
IDChoice/Window, 4 skipped bytes for Request/Match/Length,
`unimplemented!` for every other code, then minor/major opcode and 21
unused trailing bytes. -/
def processError (buf : List Nat) : Option (XError × List Nat) := do
  let (raw_error_code, b1) ← getU8 buf
  let code ← ErrorCode.fromU8 raw_error_code
  let (seq, b2) ← getU16le b1
  let (bad_id, b3) ← (match code with
    | .IDChoice | .Window => do
        let (id, b) ← getU32le b2
        some (some id, b)
    | .Request | .Match | .Length => do
        let b ← bufAdvance 4 b2
        some ((none : Option Nat), b)
    | _ => none)
  let (minor, b4) ← getU16le b3
  let (major, b5) ← getU8 b4
  let b6 ← bufAdvance 21 b5
  some (⟨code, seq, bad_id, minor, major⟩, b6)

/-- String loop of the ListExtensions reply branch (lines 994-1004):
consumes `count` length-prefixed strings, returning the consumed byte
count `sum_bytes`; `none` models both the `get(..str_len).unwrap()`
bounds panic and the `AsciiString::from_ascii(..).unwrap()` panic on any
non-ASCII string byte (> 127). -/
def readStrings : Nat → List Nat → Option (Nat × List Nat)
  | 0, b => some (0, b)
  | n + 1, b => do
      let (str_len, b1) ← getU8 b
      if str_len ≤ b1.length then
        if (b1.take str_len).all (fun c => c ≤ 127) then
          let b2 := b1.drop str_len
          let (sum, b3) ← readStrings n b2
          some (1 + str_len + sum, b3)
        else none
      else none

/-- Outcome of one iteration of the reader loop: `needMore` stands for the
loop reading further bytes from the socket before retrying, `fatal` for a
panic / `unimplemented!`. -/
inductive StepOutcome where
  | needMore
  | errorFrame (err : XError) (rest : List Nat)
  | replyDelivered (payload rest : List Nat)
  | replyNoEntry (rest : List Nat)
  | replyIgnored (rest : List Nat)
  | eventFrame (rest : List Nat)
  | fatal
deriving DecidableEq

/-- ListExtensions arm of the reply branch (lines 981-1006): reads the
string count, sequence number and declared length, skips 24 unused bytes,
waits until `4 * response_length` further bytes are buffered, consumes the
strings and slices off the trailing padding. -/
def replyListExtensions (buf : List Nat) : StepOutcome :=
  match (do
    let (number_of_strings, b1) ← getU8 buf
    let (_seq, b2) ← getU16le b1
    let (response_length, b3) ← getU32le b2
    let b4 ← bufAdvance 24 b3
    some (number_of_strings, response_length, b4) :
      Option (Nat × Nat × List Nat)) with
  | none => .fatal
  | some (number_of_strings, response_length, b4) =>
      if b4.length < response_length * 4 then .needMore
      else
        match readStrings number_of_strings b4 with
        | none => .fatal
        | some (sum_bytes, b5) =>
            if pad sum_bytes ≤ b5.length then
              .replyDelivered (b5.take (pad sum_bytes)) (b5.drop (pad sum_bytes))
            else .fatal

/-- ListFonts arm of the reply branch (lines 1010-1022): skips one unused
byte, reads sequence number and declared length, waits until
`4 * response_length + 24` further bytes are buffered, then slices exactly
that many off. -/
def replyListFonts (buf : List Nat) : StepOutcome :=
  match (do
    let b1 ← bufAdvance 1 buf
    let (_seq, b2) ← getU16le b1
    let (response_length, b3) ← getU32le b2
    some (response_length, b3) : Option (Nat × List Nat)) with
  | none => .fatal
  | some (response_length, b3) =>
      if b3.length < response_length * 4 + 24 then .needMore
      else .replyDelivered (b3.take (response_length * 4 + 24))
        (b3.drop (response_length * 4 + 24))

/-- Reply branch of the reader loop (lines 969-1028), applied to the buffer
after the leading `1` byte was consumed, for the registered request kind:
GetWindowAttributes waits for 44 buffered bytes and slices 43;
ListExtensions and ListFonts are the helper arms above; QueryExtension
slices 31 at once; OpenFont/ImageText8 only log; other kinds panic. -/
def processReply (opcode : Opcodes) (buf : List Nat) : StepOutcome :=
  match opcode with
  | .GetWindowAttributes =>
      if buf.length < 44 then .needMore
      else .replyDelivered (buf.take 43) (buf.drop 43)
  | .ListExtensions => replyListExtensions buf
  | .QueryExtension =>
      if 31 ≤ buf.length then .replyDelivered (buf.take 31) (buf.drop 31)
      else .fatal
  | .ListFonts => replyListFonts buf
  | .OpenFont => .replyIgnored buf
  | .ImageText8 => .replyIgnored buf
  | _ => .fatal

/-- One iteration of the reader loop (lines 940-1035): below 32 buffered
bytes it reads more; otherwise the first byte selects the Error frame
branch (`0`), the Reply branch (`1`, routed by the pending registered
opcode, if any), or an Event subtype; an unknown first byte panics. -/
def classifyStep (pending : Option Opcodes) : List Nat → StepOutcome
  | [] => .needMore
  | first_byte :: rest =>
    if (first_byte :: rest).length < 32 then .needMore
    else if first_byte = 0 then
      match processError rest with
      | some (err, r) => .errorFrame err r
      | none => .fatal
    else if first_byte = 1 then
      match pending with
      | some opcode => processReply opcode rest
      | none => .replyNoEntry rest
    else
      match Events.fromU8 first_byte with
      | some event =>
          match decode_event event rest with
          | some r => .eventFrame r
          | none => .fatal
      | none => .fatal

/-! ### Handshake status match (src/main.rs lines 771-777) -/

/-- Disposition of the connection-setup status byte. -/
inductive StatusAction where
  | failedPanic
  | successContinue
  | authenticateContinue
  | unknownPanic (code : Nat)
deriving DecidableEq

/-- The `match status_code` at lines 772-777: `0` panics ("failed"), `1`
logs success and continues, `2` logs "authenticate" and continues into the
same decode path, anything else panics. -/
def statusMatch (status_code : Nat) : StatusAction :=
  match status_code with
  | 0 => .failedPanic
  | 1 => .successContinue
  | 2 => .authenticateContinue
  | x => .unknownPanic x

/-- Whether the disposition is a panic (process abort). -/
def StatusAction.aborts : StatusAction → Bool
  | .failedPanic => true
  | .unknownPanic _ => true
  | .successContinue => false
  | .authenticateContinue => false

/-! ### Concrete sample values used by witnesses -/

/-- Sample generator from the spec's scenario
(`base = 0x0020_0000`, `mask = 0x001F_FFFF`). -/
def sampleGen : IdGenerator := IdGenerator.new 0x200000 0x1FFFFF

/-- Sample connection carrying the same base/mask. -/
def sampleConnection : Connection := ⟨0x200000, 0x1FFFFF⟩

/-- Concrete screen used to instantiate encoder theorems. -/
def sampleScreen : Screen where
  window := 0x3A
  default_colormap := 0x20
  white_pixel := 0xFFFFFF
  black_pixel := 0
  current_input_masks := 0x58003F
  width_pixels := 800
  height_pixels := 600
  width_mm := 211
  height_mm := 158
  min_installed_maps := 1
  max_installed_maps := 1
  root_visual := 0x21
  backing_stores := .WhenMapped
  save_unders := false
  root_depth := 24
  number_depths_in_allowed_depths := 0
  allowed_depths := []

/-! ### Bit-arithmetic helper lemmas -/

theorem lor_eq_add_of_land_eq_zero : ∀ a b : Nat, a &&& b = 0 → a ||| b = a + b := by
  intro a
  induction a using Nat.strong_induction_on with
  | _ a ih =>
    intro b h
    rcases Nat.eq_zero_or_pos a with rfl | ha
    · simp
    · have h2 : a / 2 &&& b / 2 = 0 := by
        rw [← Nat.and_div_two, h]
      have ihh := ih (a / 2) (Nat.div_lt_self ha (by norm_num)) (b / 2) h2
      have hb0 : ¬(a % 2 = 1 ∧ b % 2 = 1) := by
        intro hc
        have h1 := Nat.and_mod_two_eq_one.mpr hc
        rw [h] at h1
        simp at h1
      have hd : a ||| b = 2 * (a / 2 ||| b / 2) + (a ||| b) % 2 := by
        rw [← Nat.or_div_two]
        omega
      have hor := Nat.or_mod_two_eq_one (a := a) (b := b)
      have hmlt : (a ||| b) % 2 < 2 := Nat.mod_lt _ (by norm_num)
      have hm : (a ||| b) % 2 = a % 2 + b % 2 := by
        rcases Nat.mod_two_eq_zero_or_one a with h1 | h1 <;>
          rcases Nat.mod_two_eq_zero_or_one b with h2' | h2'
        · have : ¬(a ||| b) % 2 = 1 := by
            rw [hor]
            omega
          omega
        · have : (a ||| b) % 2 = 1 := hor.mpr (Or.inr h2')
          omega
        · have : (a ||| b) % 2 = 1 := hor.mpr (Or.inl h1)
          omega
        · exact absurd ⟨h1, h2'⟩ hb0
      rw [hd, ihh, hm]
      omega

theorem testBit_two_pow_sub_two_pow {k m : Nat} (hkm : k ≤ m) (i : Nat) :
    (2 ^ m - 2 ^ k).testBit i = (decide (k ≤ i) && decide (i < m)) := by
  have hrw : 2 ^ m - 2 ^ k = 2 ^ k * (2 ^ (m - k) - 1) := by
    rw [Nat.mul_sub, Nat.mul_one, ← Nat.pow_add]
    congr 2
    omega
  rw [hrw, Nat.testBit_mul_pow_two]
  simp only [Nat.testBit_two_pow_sub_one, ge_iff_le]
  by_cases h1 : k ≤ i
  · simp only [h1, decide_True, Bool.true_and]
    exact decide_eq_decide.mpr (by omega)
  · simp [h1]

theorem idInc_contig {k m : Nat} (hk : k < m) (hm : m ≤ 32) :
    idInc (2 ^ m - 2 ^ k) = 2 ^ k := by
  have hkm : (2 : Nat) ^ k < 2 ^ m := Nat.pow_lt_pow_right (by norm_num) hk
  have hm32 : (2 : Nat) ^ m ≤ 2 ^ 32 := Nat.pow_le_pow_right (by norm_num) hm
  have hkpos : (0 : Nat) < 2 ^ k := Nat.two_pow_pos k
  unfold idInc
  have h1 : (2 ^ 32 - 1 - (2 ^ m - 2 ^ k) + 1) % 2 ^ 32 = 2 ^ 32 - (2 ^ m - 2 ^ k) := by
    have he : 2 ^ 32 - 1 - (2 ^ m - 2 ^ k) + 1 = 2 ^ 32 - (2 ^ m - 2 ^ k) := by omega
    rw [he]
    exact Nat.mod_eq_of_lt (by omega)
  rw [h1]
  have h2 : 2 ^ 32 - (2 ^ m - 2 ^ k) = 2 ^ m * (2 ^ (32 - m) - 1) + 2 ^ k := by
    have he : 2 ^ m * (2 ^ (32 - m) - 1) = 2 ^ 32 - 2 ^ m := by
      rw [Nat.mul_sub, Nat.mul_one, ← Nat.pow_add]
      congr 2
      omega
    omega
  rw [h2]
  apply Nat.eq_of_testBit_eq
  intro i
  rw [Nat.testBit_land, testBit_two_pow_sub_two_pow (Nat.le_of_lt hk),
    Nat.testBit_mul_pow_two_add _ hkm i]
  by_cases him : i < m
  · simp only [him, ite_true, decide_True, Bool.and_true]
    by_cases hki : k = i
    · subst hki
      simp [Nat.testBit_two_pow_self]
    · rw [Nat.testBit_two_pow_of_ne hki]
      simp
  · simp only [him, decide_False, Bool.and_false, Bool.false_and]
    rw [Nat.testBit_two_pow_of_ne (by omega)]

theorem contig_mask_mul {k m : Nat} (hk : k < m) :
    (2 ^ (m - k) - 1) * 2 ^ k = 2 ^ m - 2 ^ k := by
  rw [Nat.sub_mul, Nat.one_mul, ← Nat.pow_add]
  congr 2
  omega

theorem next_of_ne {g : IdGenerator} (h : g.last ≠ g.max) :
    g.next = (some (((g.last + g.inc) % 2 ^ 32) ||| g.base),
      { g with last := (g.last + g.inc) % 2 ^ 32 }) := by
  unfold IdGenerator.next
  rw [if_neg h]

theorem next_of_eq {g : IdGenerator} (h : g.last = g.max) : g.next = (none, g) := by
  unfold IdGenerator.next
  rw [if_pos h]

theorem iter_new_contig (base m k : Nat) (hk : k < m) (hm : m ≤ 32) :
    ∀ j, j ≤ 2 ^ (m - k) - 1 →
      (IdGenerator.new base (2 ^ m - 2 ^ k)).iter j =
        ⟨j * 2 ^ k, 2 ^ m - 2 ^ k, base, 2 ^ k⟩ := by
  have hkm : (2 : Nat) ^ k < 2 ^ m := Nat.pow_lt_pow_right (by norm_num) hk
  have hm32 : (2 : Nat) ^ m ≤ 2 ^ 32 := Nat.pow_le_pow_right (by norm_num) hm
  have hkpos : (0 : Nat) < 2 ^ k := Nat.two_pow_pos k
  have hmask : (2 ^ (m - k) - 1) * 2 ^ k = 2 ^ m - 2 ^ k := contig_mask_mul hk
  intro j
  induction j with
  | zero =>
    intro _
    simp [IdGenerator.iter, IdGenerator.new, idInc_contig hk hm]
  | succ j ih =>
    intro hj
    rw [IdGenerator.iter, ih (by omega)]
    have hlt : j < 2 ^ (m - k) - 1 := by omega
    have hne : j * 2 ^ k ≠ 2 ^ m - 2 ^ k := by
      rw [← hmask]
      have := (Nat.mul_lt_mul_right hkpos).mpr hlt
      omega
    have hbound : (j + 1) * 2 ^ k ≤ 2 ^ m - 2 ^ k := by
      rw [← hmask]
      exact Nat.mul_le_mul_right _ (by omega)
    rw [@next_of_ne ⟨j * 2 ^ k, 2 ^ m - 2 ^ k, base, 2 ^ k⟩ hne]
    have hexp : (j + 1) * 2 ^ k = j * 2 ^ k + 2 ^ k := by ring
    have hmod : (j * 2 ^ k + 2 ^ k) % 2 ^ 32 = (j + 1) * 2 ^ k := by
      rw [Nat.add_mul, Nat.one_mul]
      exact Nat.mod_eq_of_lt (by omega)
    show IdGenerator.mk ((j * 2 ^ k + 2 ^ k) % 2 ^ 32) _ _ _ = _
    rw [hmod]

theorem iter_stuck_contig (base m k : Nat) (hk : k < m) (hm : m ≤ 32) :
    ∀ j, 2 ^ (m - k) - 1 ≤ j →
      (IdGenerator.new base (2 ^ m - 2 ^ k)).iter j =
        ⟨2 ^ m - 2 ^ k, 2 ^ m - 2 ^ k, base, 2 ^ k⟩ := by
  intro j
  induction j with
  | zero =>
    intro hj
    have h2 : (2 : Nat) ^ 1 ≤ 2 ^ (m - k) := Nat.pow_le_pow_right (by norm_num) (by omega)
    have h21 : (2 : Nat) ^ 1 = 2 := by norm_num
    exact absurd hj (by omega)
  | succ j ih =>
    intro hj
    rcases Nat.lt_or_ge j (2 ^ (m - k) - 1) with hlt | hge
    · have hj1 : j + 1 = 2 ^ (m - k) - 1 := by omega
      rw [hj1]
      have h1 := iter_new_contig base m k hk hm (2 ^ (m - k) - 1) (Nat.le_refl _)
      rw [h1, contig_mask_mul hk]
    · rw [IdGenerator.iter, ih hge]
      rw [@next_of_eq ⟨2 ^ m - 2 ^ k, 2 ^ m - 2 ^ k, base, 2 ^ k⟩ rfl]

/-- Bits of any counter value `c ≤ mask` that is a multiple of `2 ^ k`
are contained in the contiguous mask `2 ^ m - 2 ^ k`. -/
theorem counter_land_mask {k m c : Nat} (hk : k < m) (hdvd : 2 ^ k ∣ c)
    (hle : c ≤ 2 ^ m - 2 ^ k) : c &&& (2 ^ m - 2 ^ k) = c := by
  have hkm : (2 : Nat) ^ k < 2 ^ m := Nat.pow_lt_pow_right (by norm_num) hk
  have hkpos : (0 : Nat) < 2 ^ k := Nat.two_pow_pos k
  apply Nat.eq_of_testBit_eq
  intro i
  rw [Nat.testBit_land, testBit_two_pow_sub_two_pow (Nat.le_of_lt hk)]
  rcases hdvd with ⟨c', rfl⟩
  by_cases hc : (2 ^ k * c').testBit i = true
  · have hki : k ≤ i := by
      by_contra hcon
      rw [Nat.testBit_mul_pow_two] at hc
      simp only [ge_iff_le, Bool.and_eq_true, decide_eq_true_eq] at hc
      omega
    have him : i < m := by
      by_contra hcon
      have hlt : 2 ^ k * c' < 2 ^ i := by
        calc 2 ^ k * c' ≤ 2 ^ m - 2 ^ k := hle
        _ < 2 ^ m := by omega
        _ ≤ 2 ^ i := Nat.pow_le_pow_right (by norm_num) (by omega)
      rw [Nat.testBit_lt_two_pow hlt] at hc
      exact Bool.false_ne_true hc
    simp [hc, hki, him]
  · simp only [Bool.not_eq_true] at hc
    simp [hc]

/-- A value whose bits are inside the mask is bitwise disjoint from any
`base` that is disjoint from the mask. -/
theorem counter_land_base {c mask base : Nat} (hsub : c &&& mask = c)
    (hdisj : base &&& mask = 0) : c &&& base = 0 := by
  apply Nat.eq_of_testBit_eq
  intro i
  rw [Nat.testBit_land, Nat.zero_testBit]
  by_cases hc : c.testBit i = true
  · have hmask : mask.testBit i = true := by
      have := congrArg (fun x => x.testBit i) hsub
      simp only [Nat.testBit_land] at this
      rcases Bool.and_eq_true_iff.mp (by rw [this]; exact hc) with ⟨_, h⟩
      exact h
    have hbase : base.testBit i = false := by
      have := congrArg (fun x => x.testBit i) hdisj
      simp only [Nat.testBit_land, Nat.zero_testBit] at this
      rcases Bool.and_eq_false_iff.mp this with h | h
      · exact h
      · rw [hmask] at h
        exact absurd h (by simp)
    simp [hbase]
  · simp only [Bool.not_eq_true] at hc
    simp [hc]

/-- Closed form of the generator's outputs for a contiguous mask
`2 ^ m - 2 ^ k` disjoint from `base`: the `(j+1)`-st call yields
`(j+1) * 2 ^ k + base` while `j` is below the capacity, `none` after. -/
theorem output_closed_form (base m k : Nat) (hk : k < m) (hm : m ≤ 32)
    (hdisj : base &&& (2 ^ m - 2 ^ k) = 0) (j : Nat) :
    (IdGenerator.new base (2 ^ m - 2 ^ k)).output j =
      if j < 2 ^ (m - k) - 1 then some ((j + 1) * 2 ^ k + base) else none := by
  have hkm : (2 : Nat) ^ k < 2 ^ m := Nat.pow_lt_pow_right (by norm_num) hk
  have hm32 : (2 : Nat) ^ m ≤ 2 ^ 32 := Nat.pow_le_pow_right (by norm_num) hm
  have hkpos : (0 : Nat) < 2 ^ k := Nat.two_pow_pos k
  have hmask : (2 ^ (m - k) - 1) * 2 ^ k = 2 ^ m - 2 ^ k := contig_mask_mul hk
  rcases Nat.lt_or_ge j (2 ^ (m - k) - 1) with hlt | hge
  · rw [if_pos hlt]
    unfold IdGenerator.output
    rw [iter_new_contig base m k hk hm j (by omega)]
    have hne : j * 2 ^ k ≠ 2 ^ m - 2 ^ k := by
      rw [← hmask]
      have := (Nat.mul_lt_mul_right hkpos).mpr hlt
      omega
    rw [@next_of_ne ⟨j * 2 ^ k, 2 ^ m - 2 ^ k, base, 2 ^ k⟩ hne]
    have hbound : (j + 1) * 2 ^ k ≤ 2 ^ m - 2 ^ k := by
      rw [← hmask]
      exact Nat.mul_le_mul_right _ (by omega)
    have hexp : (j + 1) * 2 ^ k = j * 2 ^ k + 2 ^ k := by ring
    have hmod : (j * 2 ^ k + 2 ^ k) % 2 ^ 32 = (j + 1) * 2 ^ k := by
      rw [Nat.add_mul, Nat.one_mul]
      exact Nat.mod_eq_of_lt (by omega)
    show some ((j * 2 ^ k + 2 ^ k) % 2 ^ 32 ||| base) = _
    rw [hmod]
    have hsub : (j + 1) * 2 ^ k &&& (2 ^ m - 2 ^ k) = (j + 1) * 2 ^ k :=
      counter_land_mask hk ⟨j + 1, Nat.mul_comm _ _⟩ hbound
    have hdisj2 : (j + 1) * 2 ^ k &&& base = 0 := counter_land_base hsub hdisj
    rw [lor_eq_add_of_land_eq_zero _ _ hdisj2]
  · rw [if_neg (by omega)]
    unfold IdGenerator.output
    rw [iter_stuck_contig base m k hk hm j hge]
    rw [@next_of_eq ⟨2 ^ m - 2 ^ k, 2 ^ m - 2 ^ k, base, 2 ^ k⟩ rfl]

/-! ### Claims about the resource-ID allocator and pad -/

/-- C9: `pad(n)` satisfies `(n + pad(n)) % 4 == 0` and `0 <= pad(n) < 4`
for all `n >= 0`. -/
theorem pad_alignment (n : Nat) : (n + pad n) % 4 = 0 ∧ 0 ≤ pad n ∧ pad n < 4 := by
  unfold pad
  omega

/-- C1 (amended): for a pair `(base, mask)` whose non-zero mask is a
contiguous run of bits `2^m - 2^k` (`k < m ≤ 32`) disjoint from `base`,
successive `IdGenerator::next()` values are strictly increasing and
pairwise distinct, and `next()` returns `None` exactly when the allocatable
range is exhausted — equivalently exactly when the internal counter equals
`mask` — never before, and forever after, never wrapping or reusing ids.
(For a non-contiguous mask the outputs can decrease and repeat.) -/
theorem idGenerator_strictly_increasing_and_exhaustion
    (base mask m k : Nat) (hk : k < m) (hm : m ≤ 32)
    (hmask : mask = 2 ^ m - 2 ^ k) (hdisj : base &&& mask = 0) :
    (∀ i j a b, i < j →
      (IdGenerator.new base mask).output i = some a →
      (IdGenerator.new base mask).output j = some b → a < b) ∧
    (∀ i j a b, i ≠ j →
      (IdGenerator.new base mask).output i = some a →
      (IdGenerator.new base mask).output j = some b → a ≠ b) ∧
    (∀ j, (IdGenerator.new base mask).output j = none ↔ 2 ^ (m - k) - 1 ≤ j) ∧
    (∀ j, (IdGenerator.new base mask).output j = none ↔
      ((IdGenerator.new base mask).iter j).last = mask) := by
  subst hmask
  have hcf := output_closed_form base m k hk hm hdisj
  have hkpos := Nat.two_pow_pos k
  have hmono : ∀ i j a b, i < j →
      (IdGenerator.new base (2 ^ m - 2 ^ k)).output i = some a →
      (IdGenerator.new base (2 ^ m - 2 ^ k)).output j = some b → a < b := by
    intro i j a b hij ha hb
    rcases Nat.lt_or_ge i (2 ^ (m - k) - 1) with hi | hi
    · rw [hcf i, if_pos hi] at ha
      rcases Nat.lt_or_ge j (2 ^ (m - k) - 1) with hj | hj
      · rw [hcf j, if_pos hj] at hb
        have ha' : (i + 1) * 2 ^ k + base = a := Option.some.inj ha
        have hb' : (j + 1) * 2 ^ k + base = b := Option.some.inj hb
        have hlt : (i + 1) * 2 ^ k < (j + 1) * 2 ^ k :=
          (Nat.mul_lt_mul_right hkpos).mpr (by omega)
        omega
      · rw [hcf j, if_neg (by omega)] at hb
        exact absurd hb (by simp)
    · rw [hcf i, if_neg (by omega)] at ha
      exact absurd ha (by simp)
  refine ⟨hmono, ?_, ?_, ?_⟩
  · intro i j a b hne ha hb
    rcases Nat.lt_or_ge i j with h | h
    · exact Nat.ne_of_lt (hmono i j a b h ha hb)
    · have hji : j < i := by omega
      exact (Nat.ne_of_lt (hmono j i b a hji hb ha)).symm
  · intro j
    rcases Nat.lt_or_ge j (2 ^ (m - k) - 1) with hj | hj
    · rw [hcf j, if_pos hj]
      exact iff_of_false (by simp) (by omega)
    · rw [hcf j, if_neg (by omega)]
      exact iff_of_true rfl hj
  · intro j
    rcases Nat.lt_or_ge j (2 ^ (m - k) - 1) with hj | hj
    · rw [hcf j, if_pos hj, iter_new_contig base m k hk hm j (by omega)]
      have hne : j * 2 ^ k ≠ 2 ^ m - 2 ^ k := by
        rw [← contig_mask_mul hk]
        have := (Nat.mul_lt_mul_right hkpos).mpr hj
        omega
      exact iff_of_false (by simp) hne
    · rw [hcf j, if_neg (by omega), iter_stuck_contig base m k hk hm j hj]
      exact iff_of_true rfl rfl

/-- Witness for C1 at the spec's own example `base = 0x0020_0000`,
`mask = 0x001F_FFFF` (`m = 21`, `k = 0`): hypotheses hold, the theorem
applies, and the first id is `0x0020_0001`. -/
theorem idGenerator_strictly_increasing_and_exhaustion_witness :
    ((0x200000 : Nat) &&& 0x1FFFFF = 0 ∧ (0x1FFFFF : Nat) = 2 ^ 21 - 2 ^ 0) ∧
    (∀ i j a b, i < j →
      (IdGenerator.new 0x200000 0x1FFFFF).output i = some a →
      (IdGenerator.new 0x200000 0x1FFFFF).output j = some b → a < b) ∧
    (IdGenerator.new 0x200000 0x1FFFFF).output 0 = some 0x200001 :=
  ⟨⟨by decide, by decide⟩,
   (idGenerator_strictly_increasing_and_exhaustion 0x200000 0x1FFFFF 21 0
      (by decide) (by decide) (by decide) (by decide)).1,
   by decide⟩

/-- Counterexample to C1 as stated: `base = 2` and `mask = 5` are bitwise
disjoint with a non-zero mask, yet the generator yields 3, 2, 3, …, which
is neither strictly increasing nor pairwise distinct. -/
theorem idGenerator_monotone_counterexample :
    ((2 : Nat) &&& 5 = 0 ∧ (5 : Nat) ≠ 0) ∧
    (IdGenerator.new 2 5).output 0 = some 3 ∧
    (IdGenerator.new 2 5).output 1 = some 2 ∧
    (IdGenerator.new 2 5).output 2 = some 3 ∧
    ¬(∀ i j a b, i < j →
        (IdGenerator.new 2 5).output i = some a →
        (IdGenerator.new 2 5).output j = some b → a < b) ∧
    ¬(∀ i j a b, i ≠ j →
        (IdGenerator.new 2 5).output i = some a →
        (IdGenerator.new 2 5).output j = some b → a ≠ b) := by
  refine ⟨⟨by decide, by decide⟩, by decide, by decide, by decide, ?_, ?_⟩
  · intro h
    have := h 0 1 3 2 (by decide) (by decide) (by decide)
    omega
  · intro h
    have := h 0 2 3 3 (by decide) (by decide) (by decide)
    exact this rfl

/-- C7 (amended): for a contiguous non-zero mask `2^m - 2^k` disjoint from
`base`, the allocation step `inc = mask & (!mask + 1)` is the lowest set
bit `2^k` of the mask, the counter advances by exactly that step, every
returned id is `counter | base`, the counter stays numerically within the
mask, and its bits are contained in the mask and disjoint from `base`.
(For a non-contiguous mask the counter's bits can leave the mask.) -/
theorem idGenerator_step_and_mask_containment
    (base mask m k : Nat) (hk : k < m) (hm : m ≤ 32)
    (hmask : mask = 2 ^ m - 2 ^ k) (hdisj : base &&& mask = 0) :
    (IdGenerator.new base mask).inc = 2 ^ k ∧
    (∀ j, ((IdGenerator.new base mask).iter j).last ≤ mask) ∧
    (∀ j, j < 2 ^ (m - k) - 1 →
      ((IdGenerator.new base mask).iter (j + 1)).last
          = ((IdGenerator.new base mask).iter j).last + (IdGenerator.new base mask).inc ∧
      (IdGenerator.new base mask).output j
          = some (((IdGenerator.new base mask).iter (j + 1)).last ||| base) ∧
      ((IdGenerator.new base mask).iter (j + 1)).last &&& mask
          = ((IdGenerator.new base mask).iter (j + 1)).last ∧
      ((IdGenerator.new base mask).iter (j + 1)).last &&& base = 0) := by
  subst hmask
  have hcf := output_closed_form base m k hk hm hdisj
  have hkpos := Nat.two_pow_pos k
  have hmaskmul : (2 ^ (m - k) - 1) * 2 ^ k = 2 ^ m - 2 ^ k := contig_mask_mul hk
  have hinc : (IdGenerator.new base (2 ^ m - 2 ^ k)).inc = 2 ^ k := idInc_contig hk hm
  refine ⟨hinc, ?_, ?_⟩
  · intro j
    rcases Nat.lt_or_ge j (2 ^ (m - k)) with hj | hj
    · rw [iter_new_contig base m k hk hm j (by omega)]
      show j * 2 ^ k ≤ 2 ^ m - 2 ^ k
      rw [← hmaskmul]
      exact Nat.mul_le_mul_right _ (by omega)
    · rw [iter_stuck_contig base m k hk hm j (by omega)]
  · intro j hj
    have hiter1 := iter_new_contig base m k hk hm (j + 1) (by omega)
    have hiter0 := iter_new_contig base m k hk hm j (by omega)
    have hbound : (j + 1) * 2 ^ k ≤ 2 ^ m - 2 ^ k := by
      rw [← hmaskmul]
      exact Nat.mul_le_mul_right _ (by omega)
    have hsub : (j + 1) * 2 ^ k &&& (2 ^ m - 2 ^ k) = (j + 1) * 2 ^ k :=
      counter_land_mask hk ⟨j + 1, Nat.mul_comm _ _⟩ hbound
    have hdisj2 : (j + 1) * 2 ^ k &&& base = 0 := counter_land_base hsub hdisj
    refine ⟨?_, ?_, ?_, ?_⟩
    · rw [hiter1, hiter0, hinc]
      show (j + 1) * 2 ^ k = j * 2 ^ k + 2 ^ k
      ring
    · rw [hcf j, if_pos hj, hiter1]
      show some ((j + 1) * 2 ^ k + base) = some ((j + 1) * 2 ^ k ||| base)
      rw [lor_eq_add_of_land_eq_zero _ _ hdisj2]
    · rw [hiter1]
      exact hsub
    · rw [hiter1]
      exact hdisj2

/-- Witness for C7 at `base = 0x0020_0000`, `mask = 0x001F_FFFF`: the step
is the mask's lowest set bit `1` (spec §8: `inc == 1`), and the first two
counters stay inside the mask. -/
theorem idGenerator_step_and_mask_containment_witness :
    ((0x200000 : Nat) &&& 0x1FFFFF = 0 ∧ (0x1FFFFF : Nat) = 2 ^ 21 - 2 ^ 0) ∧
    (IdGenerator.new 0x200000 0x1FFFFF).inc = 2 ^ 0 ∧
    (IdGenerator.new 0x200000 0x1FFFFF).inc = 1 ∧
    ((IdGenerator.new 0x200000 0x1FFFFF).iter 2).last = 2 ∧
    ((2 : Nat) &&& 0x1FFFFF = 2) :=
  ⟨⟨by decide, by decide⟩,
   (idGenerator_step_and_mask_containment 0x200000 0x1FFFFF 21 0
      (by decide) (by decide) (by decide) (by decide)).1,
   by decide, by decide, by decide⟩

/-- Counterexample to C7 as stated: with the non-zero mask `5` (and base 0)
the second call's counter is `2`, whose set bit is not contained in the
mask: `2 &&& 5 = 0 ≠ 2`. -/
theorem idGenerator_mask_containment_counterexample :
    ((5 : Nat) ≠ 0) ∧
    (IdGenerator.new 0 5).inc = 1 ∧
    (IdGenerator.new 0 5).output 1 = some 2 ∧
    ((IdGenerator.new 0 5).iter 2).last = 2 ∧
    ¬((2 : Nat) &&& 5 = 2) := by
  refine ⟨by decide, by decide, by decide, by decide, by decide⟩

/-- Concrete IDChoice error frame (code 14, sequence 0x1234, bad id
0xDEADBEEF, minor 5, major 1) used by witnesses. -/
def sampleIdChoiceFrame : List Nat :=
  [0, 14, 0x34, 0x12, 0xEF, 0xBE, 0xAD, 0xDE, 0x05, 0x00, 0x01] ++ List.replicate 21 0

/-- Concrete Match error frame (code 8) used by witnesses. -/
def sampleMatchFrame : List Nat :=
  [0, 8, 0x01, 0x00, 9, 9, 9, 9, 0x02, 0x00, 0x03] ++ List.replicate 21 0

/-- Concrete Length error frame (code 16) used by witnesses. -/
def sampleLengthFrame : List Nat := [0, 16] ++ List.replicate 30 0

/-- Concrete Value error frame (code 2): its code is defined by the
protocol but has no decode arm in the source. -/
def sampleValueFrame : List Nat := [0, 2] ++ List.replicate 30 0

/-- Concrete 32-byte reply frame declaring extended length 0, used by
witnesses for the QueryExtension / ListFonts / ListExtensions branches. -/
def sampleReplyFrame : List Nat := [1, 0, 0, 0, 0, 0, 0, 0] ++ List.replicate 24 0

/-- Concrete 45-byte buffer holding a GetWindowAttributes reply (declared
length 3, hence 44 frame bytes) plus the one extra byte the reader waits
for. -/
def sampleGwaFrame : List Nat := [1, 0, 0, 0, 3, 0, 0, 0] ++ List.replicate 37 0

/-- Concrete 36-byte ListExtensions reply frame declaring extended length
1 and carrying one 3-byte ASCII extension name. -/
def sampleListExtFrame : List Nat :=
  [1, 1, 0, 0, 1, 0, 0, 0] ++ List.replicate 24 0 ++ [3, 65, 66, 67]

/-! ### Buffer reader lemmas -/

theorem getU8_eq {l : List Nat} (h : 1 ≤ l.length) :
    getU8 l = some (l.getD 0 0, l.drop 1) := by
  cases l with
  | nil => simp at h
  | cons a t => rfl

theorem getU16le_eq {l : List Nat} (h : 2 ≤ l.length) :
    getU16le l = some (l.getD 0 0 + 256 * l.getD 1 0, l.drop 2) := by
  cases l with
  | nil => simp at h
  | cons a t =>
    cases t with
    | nil => simp at h
    | cons b t2 => rfl

theorem getU32le_eq {l : List Nat} (h : 4 ≤ l.length) :
    getU32le l = some (l.getD 0 0 + 256 * l.getD 1 0 + 65536 * l.getD 2 0
      + 16777216 * l.getD 3 0, l.drop 4) := by
  cases l with
  | nil => simp at h
  | cons a t =>
    cases t with
    | nil => simp at h
    | cons b t2 =>
      cases t2 with
      | nil => simp at h
      | cons c t3 =>
        cases t3 with
        | nil => simp at h
        | cons d t4 => rfl

theorem bufAdvance_eq {n : Nat} {l : List Nat} (h : n ≤ l.length) :
    bufAdvance n l = some (l.drop n) := by
  unfold bufAdvance
  rw [if_pos h]

theorem decodeKeyEvent_eq {buf : List Nat} (h : 31 ≤ buf.length) :
    decodeKeyEvent buf = some (buf.drop 31) := by
  unfold decodeKeyEvent
  rw [getU8_eq (by omega)]
  simp only [Option.bind_eq_bind, Option.some_bind]
  rw [getU16le_eq (by simp; omega)]
  simp only [Option.some_bind]
  rw [getU32le_eq (by simp; omega)]
  simp only [Option.some_bind]
  rw [bufAdvance_eq (by simp; omega)]
  simp [List.drop_drop]

theorem decodeButtonEvent_eq {buf : List Nat} (h : 31 ≤ buf.length) :
    decodeButtonEvent buf = some (buf.drop 31) := by
  unfold decodeButtonEvent
  rw [getU8_eq (by omega)]
  simp only [Option.bind_eq_bind, Option.some_bind]
  rw [getU16le_eq (by simp; omega)]
  simp only [Option.some_bind]
  rw [getU32le_eq (by simp; omega)]
  simp only [Option.some_bind]
  rw [bufAdvance_eq (by simp; omega)]
  simp [List.drop_drop]

theorem decodeEnterLeaveWindows_eq {buf : List Nat} (h : 19 ≤ buf.length) :
    decodeEnterLeaveWindows buf = some (buf.drop 19) := by
  unfold decodeEnterLeaveWindows
  rw [getU8_eq (by omega)]
  simp only [Option.bind_eq_bind, Option.some_bind]
  rw [getU16le_eq (by simp; omega)]
  simp only [Option.some_bind]
  rw [getU32le_eq (by simp; omega)]
  simp only [Option.some_bind]
  rw [getU32le_eq (by simp; omega)]
  simp only [Option.some_bind]
  rw [getU32le_eq (by simp; omega)]
  simp only [Option.some_bind]
  rw [getU32le_eq (by simp; omega)]
  simp only [Option.some_bind]
  simp [List.drop_drop]

theorem decodeEnterLeaveEvent_eq {buf : List Nat} (h : 31 ≤ buf.length) :
    decodeEnterLeaveEvent buf = some (buf.drop 31) := by
  unfold decodeEnterLeaveEvent
  rw [decodeEnterLeaveWindows_eq (by omega)]
  simp only [Option.bind_eq_bind, Option.some_bind]
  rw [getU16le_eq (by simp; omega)]
  simp only [Option.some_bind]
  rw [getU16le_eq (by simp; omega)]
  simp only [Option.some_bind]
  rw [getU16le_eq (by simp; omega)]
  simp only [Option.some_bind]
  rw [getU16le_eq (by simp; omega)]
  simp only [Option.some_bind]
  rw [getU16le_eq (by simp; omega)]
  simp only [Option.some_bind]
  rw [getU8_eq (by simp; omega)]
  simp only [Option.some_bind]
  rw [getU8_eq (by simp; omega)]
  simp only [Option.some_bind]
  simp [List.drop_drop]

theorem decodeMappingNotifyEvent_eq {buf : List Nat} (h : 31 ≤ buf.length) :
    decodeMappingNotifyEvent buf = some (buf.drop 31) := by
  unfold decodeMappingNotifyEvent
  rw [bufAdvance_eq (by omega)]
  simp only [Option.bind_eq_bind, Option.some_bind]
  rw [getU16le_eq (by simp; omega)]
  simp only [Option.some_bind]
  rw [getU8_eq (by simp; omega)]
  simp only [Option.some_bind]
  rw [getU8_eq (by simp; omega)]
  simp only [Option.some_bind]
  rw [getU8_eq (by simp; omega)]
  simp only [Option.some_bind]
  rw [bufAdvance_eq (by simp; omega)]
  simp [List.drop_drop]

theorem decodeExposeEvent_eq {buf : List Nat} (h : 31 ≤ buf.length) :
    decodeExposeEvent buf = some (buf.drop 31) := by
  unfold decodeExposeEvent
  rw [bufAdvance_eq (by omega)]
  simp only [Option.bind_eq_bind, Option.some_bind]
  rw [getU16le_eq (by simp; omega)]
  simp only [Option.some_bind]
  rw [getU32le_eq (by simp; omega)]
  simp only [Option.some_bind]
  rw [getU16le_eq (by simp; omega)]
  simp only [Option.some_bind]
  rw [getU16le_eq (by simp; omega)]
  simp only [Option.some_bind]
  rw [getU16le_eq (by simp; omega)]
  simp only [Option.some_bind]
  rw [getU16le_eq (by simp; omega)]
  simp only [Option.some_bind]
  rw [bufAdvance_eq (by simp; omega)]
  simp [List.drop_drop]

/-! ### Claims about event decoding and the handshake status byte -/

/-- C10: for every event subtype with a decode arm, if fewer than 31 bytes
remain after the event-type byte, `decode_event` returns immediately
consuming nothing and without error; with at least 31 bytes it consumes
exactly 31 bytes, so a handled event frame totals 32 bytes with its type
byte. -/
theorem decode_event_frame_effect (e : Events) (buf : List Nat)
    (h : e.hasDecodePath = true) :
    (buf.length < 31 → decode_event e buf = some buf) ∧
    (31 ≤ buf.length → decode_event e buf = some (buf.drop 31)) := by
  constructor
  · intro hlen
    unfold decode_event
    rw [if_pos hlen]
  · intro hlen
    unfold decode_event
    rw [if_neg (by omega)]
    cases e <;>
      first
        | exact decodeKeyEvent_eq hlen
        | exact decodeButtonEvent_eq hlen
        | exact decodeEnterLeaveEvent_eq hlen
        | exact decodeMappingNotifyEvent_eq hlen
        | exact decodeExposeEvent_eq hlen
        | exact absurd h (by simp [Events.hasDecodePath])

/-- Witness for C10: a full 31-byte Expose tail is consumed entirely, and a
2-byte KeyPress tail is returned untouched. -/
theorem decode_event_frame_effect_witness :
    (Events.hasDecodePath .Expose = true ∧ 31 ≤ (List.replicate 31 0).length) ∧
    decode_event .Expose (List.replicate 31 0) = some [] ∧
    decode_event .KeyPress [7, 7] = some [7, 7] := by
  refine ⟨⟨by decide, by decide⟩, ?_, ?_⟩
  · have h2 : (List.replicate 31 (0 : Nat)).drop 31 = [] := by decide
    rw [← h2]
    exact (decode_event_frame_effect .Expose (List.replicate 31 0) (by decide)).2
      (by decide)
  · exact (decode_event_frame_effect .KeyPress [7, 7] (by decide)).1 (by decide)

/-- Counterexample to C5 as stated: status byte 2 (Authenticate) only logs
and falls through into the success decode path; it is not fatal. -/
theorem statusMatch_authenticate_counterexample :
    statusMatch 2 = StatusAction.authenticateContinue ∧
    (statusMatch 2).aborts = false :=
  ⟨rfl, rfl⟩

/-- C5 (amended): status 0 (Failed) panics; status 1 (Success) proceeds to
decode the capability set; status 2 (Authenticate) logs and proceeds into
the same decode path rather than being fatal; any other status byte is a
fatal protocol violation. -/
theorem statusMatch_disposition :
    (statusMatch 0).aborts = true ∧
    statusMatch 1 = StatusAction.successContinue ∧
    (statusMatch 1).aborts = false ∧
    statusMatch 2 = StatusAction.authenticateContinue ∧
    (statusMatch 2).aborts = false ∧
    ∀ x, 3 ≤ x → (statusMatch x).aborts = true := by
  refine ⟨rfl, rfl, rfl, rfl, rfl, ?_⟩
  intro x hx
  match x, hx with
  | n + 3, _ => rfl

/-- Witness for C5 at the unknown status byte 7. -/
theorem statusMatch_disposition_witness :
    (3 ≤ 7) ∧ (statusMatch 7).aborts = true :=
  ⟨by decide, statusMatch_disposition.2.2.2.2.2 7 (by decide)⟩

/-! ### Error-branch lemmas -/

theorem getD_drop (l : List Nat) (n i : Nat) :
    (l.drop n).getD i 0 = l.getD (n + i) 0 := by
  simp [List.getD_eq_getElem?_getD, List.getElem?_drop]

theorem processError_with_id {buf : List Nat} (h : 31 ≤ buf.length)
    {ec : ErrorCode} (hc : ErrorCode.fromU8 (buf.getD 0 0) = some ec)
    (hid : ec = .IDChoice ∨ ec = .Window) :
    processError buf = some (⟨ec, buf.getD 1 0 + 256 * buf.getD 2 0,
      some (le32at buf 3), buf.getD 7 0 + 256 * buf.getD 8 0, buf.getD 9 0⟩,
      buf.drop 31) := by
  unfold processError
  rw [getU8_eq (by omega)]
  simp only [Option.bind_eq_bind, Option.some_bind]
  rw [hc]
  simp only [Option.some_bind]
  rw [getU16le_eq (by simp; omega)]
  simp only [Option.some_bind]
  rcases hid with rfl | rfl <;>
  · rw [getU32le_eq (by simp; omega)]
    simp only [Option.some_bind]
    rw [getU16le_eq (by simp; omega)]
    simp only [Option.some_bind]
    rw [getU8_eq (by simp; omega)]
    simp only [Option.some_bind]
    rw [bufAdvance_eq (by simp; omega)]
    simp only [Option.some_bind]
    simp [getD_drop, List.drop_drop, le32at]

theorem processError_skip {buf : List Nat} (h : 31 ≤ buf.length)
    {ec : ErrorCode} (hc : ErrorCode.fromU8 (buf.getD 0 0) = some ec)
    (hskip : ec = .Request ∨ ec = .Match ∨ ec = .Length) :
    processError buf = some (⟨ec, buf.getD 1 0 + 256 * buf.getD 2 0,
      none, buf.getD 7 0 + 256 * buf.getD 8 0, buf.getD 9 0⟩,
      buf.drop 31) := by
  unfold processError
  rw [getU8_eq (by omega)]
  simp only [Option.bind_eq_bind, Option.some_bind]
  rw [hc]
  simp only [Option.some_bind]
  rw [getU16le_eq (by simp; omega)]
  simp only [Option.some_bind]
  rcases hskip with rfl | rfl | rfl <;>
  · rw [bufAdvance_eq (by simp; omega)]
    simp only [Option.some_bind]
    rw [getU16le_eq (by simp; omega)]
    simp only [Option.some_bind]
    rw [getU8_eq (by simp; omega)]
    simp only [Option.some_bind]
    rw [bufAdvance_eq (by simp; omega)]
    simp only [Option.some_bind]
    simp [getD_drop, List.drop_drop]

/-! ### Claims about error-frame handling -/

/-- C3: an error frame (first byte 0) with error-code byte 14 (IDChoice)
decodes its 4-byte field as a bad-resource-id equal to the value carried
at bytes 4-7; with error-code byte 8 (Match) the 4 unused bytes are
skipped without being interpreted as an id; in both cases exactly 32 bytes
of the frame are consumed, including the 21 unused trailing bytes. -/
theorem error_frame_idchoice_and_match (p : Option Opcodes) (buf : List Nat)
    (hlen : 32 ≤ buf.length) (h0 : buf.getD 0 0 = 0) :
    (buf.getD 1 0 = 14 →
      classifyStep p buf = .errorFrame
        ⟨.IDChoice, le16at buf 2, some (le32at buf 4), le16at buf 8, buf.getD 10 0⟩
        (buf.drop 32)) ∧
    (buf.getD 1 0 = 8 →
      classifyStep p buf = .errorFrame
        ⟨.Match, le16at buf 2, none, le16at buf 8, buf.getD 10 0⟩
        (buf.drop 32)) := by
  cases buf with
  | nil => simp at hlen
  | cons b rest =>
    simp only [List.getD_cons_zero] at h0
    subst h0
    simp only [List.length_cons] at hlen
    constructor
    · intro h14
      simp only [List.getD_cons_succ] at h14
      simp only [classifyStep]
      rw [if_neg (by simp; omega)]
      simp only [eq_self_iff_true, if_true]
      rw [processError_with_id (by omega) (by rw [h14]; rfl) (Or.inl rfl)]
      simp [le16at, le32at, List.drop_succ_cons]
    · intro h8
      simp only [List.getD_cons_succ] at h8
      simp only [classifyStep]
      rw [if_neg (by simp; omega)]
      simp only [eq_self_iff_true, if_true]
      rw [processError_skip (by omega) (by rw [h8]; rfl) (Or.inr (Or.inl rfl))]
      simp [le16at, List.drop_succ_cons]

/-- Witness for C3: the sample IDChoice frame surfaces bad id 0xDEADBEEF
and the sample Match frame carries no id; both leave an empty rest. -/
theorem error_frame_idchoice_and_match_witness :
    (32 ≤ sampleIdChoiceFrame.length ∧ sampleIdChoiceFrame.getD 0 0 = 0 ∧
      sampleIdChoiceFrame.getD 1 0 = 14 ∧ le32at sampleIdChoiceFrame 4 = 0xDEADBEEF) ∧
    classifyStep none sampleIdChoiceFrame = .errorFrame
      ⟨.IDChoice, le16at sampleIdChoiceFrame 2, some (le32at sampleIdChoiceFrame 4),
        le16at sampleIdChoiceFrame 8, sampleIdChoiceFrame.getD 10 0⟩
      (sampleIdChoiceFrame.drop 32) ∧
    classifyStep none sampleMatchFrame = .errorFrame
      ⟨.Match, le16at sampleMatchFrame 2, none,
        le16at sampleMatchFrame 8, sampleMatchFrame.getD 10 0⟩
      (sampleMatchFrame.drop 32) :=
  ⟨⟨by decide, by decide, by decide, by decide⟩,
   (error_frame_idchoice_and_match none sampleIdChoiceFrame
      (by decide) (by decide)).1 (by decide),
   (error_frame_idchoice_and_match none sampleMatchFrame
      (by decide) (by decide)).2 (by decide)⟩

/-- Counterexample to C4 as stated: error code 2 (Value) is one of the 17
defined protocol error codes, yet the classifier hits `unimplemented!` and
aborts instead of surfacing it. -/
theorem error_frame_value_aborts_counterexample :
    ErrorCode.fromU8 2 = some ErrorCode.Value ∧
    classifyStep none sampleValueFrame = StepOutcome.fatal :=
  ⟨rfl, by decide⟩

/-- C4 (amended): only the five error codes with a decode arm — Request
(1), Window (3), Match (8), IDChoice (14) and Length (16) — are decoded
and surfaced as structured data without aborting, leaving the stream
aligned on the next frame; every other defined code hits `unimplemented!`
and aborts. -/
theorem error_frames_handled_codes (p : Option Opcodes) (buf : List Nat)
    (hlen : 32 ≤ buf.length) (h0 : buf.getD 0 0 = 0)
    (hc : buf.getD 1 0 = 1 ∨ buf.getD 1 0 = 3 ∨ buf.getD 1 0 = 8 ∨
      buf.getD 1 0 = 14 ∨ buf.getD 1 0 = 16) :
    ∃ err, classifyStep p buf = .errorFrame err (buf.drop 32) := by
  cases buf with
  | nil => simp at hlen
  | cons b rest =>
    simp only [List.getD_cons_zero] at h0
    subst h0
    simp only [List.length_cons] at hlen
    simp only [List.getD_cons_succ] at hc
    simp only [classifyStep]
    rw [if_neg (by simp; omega)]
    simp only [eq_self_iff_true, if_true]
    rcases hc with h | h | h | h | h
    · rw [processError_skip (by omega) (by rw [h]; rfl) (Or.inl rfl)]
      exact ⟨_, rfl⟩
    · rw [processError_with_id (by omega) (by rw [h]; rfl) (Or.inr rfl)]
      exact ⟨_, rfl⟩
    · rw [processError_skip (by omega) (by rw [h]; rfl) (Or.inr (Or.inl rfl))]
      exact ⟨_, rfl⟩
    · rw [processError_with_id (by omega) (by rw [h]; rfl) (Or.inl rfl)]
      exact ⟨_, rfl⟩
    · rw [processError_skip (by omega) (by rw [h]; rfl) (Or.inr (Or.inr rfl))]
      exact ⟨_, rfl⟩

/-- Witness for C4 at a Length (16) error frame. -/
theorem error_frames_handled_codes_witness :
    (32 ≤ sampleLengthFrame.length ∧ sampleLengthFrame.getD 0 0 = 0 ∧
      sampleLengthFrame.getD 1 0 = 16) ∧
    ∃ err, classifyStep none sampleLengthFrame =
      .errorFrame err (sampleLengthFrame.drop 32) :=
  ⟨⟨by decide, by decide, by decide⟩,
   error_frames_handled_codes none sampleLengthFrame (by decide) (by decide)
     (by decide)⟩

/-! ### Reply-branch lemmas -/

theorem drop_cons_of_pos {a : Nat} {l : List Nat} {n : Nat} (h : 0 < n) :
    (a :: l).drop n = l.drop (n - 1) := by
  cases n with
  | zero => omega
  | succ m => simp [List.drop_succ_cons]

theorem readStrings_drop : ∀ (n : Nat) (b : List Nat) (sum : Nat) (b' : List Nat),
    readStrings n b = some (sum, b') → b' = b.drop sum ∧ sum ≤ b.length := by
  intro n
  induction n with
  | zero =>
    intro b sum b' h
    unfold readStrings at h
    simp at h
    obtain ⟨rfl, rfl⟩ := h
    simp
  | succ n ih =>
    intro b sum b' h
    unfold readStrings at h
    cases b with
    | nil => simp [getU8] at h
    | cons a t =>
      simp only [getU8, Option.bind_eq_bind, Option.some_bind] at h
      by_cases hle : a ≤ t.length
      · rw [if_pos hle] at h
        by_cases hascii : (t.take a).all (fun c => c ≤ 127) = true
        · rw [if_pos hascii] at h
          cases hr : readStrings n (t.drop a) with
          | none => rw [hr] at h; simp at h
          | some p =>
            obtain ⟨s2, b3⟩ := p
            rw [hr] at h
            simp only [Option.some_bind, Option.some.injEq, Prod.mk.injEq] at h
            obtain ⟨hsum, hbeq⟩ := h
            subst hsum
            subst hbeq
            obtain ⟨hb3, hs2⟩ := ih (t.drop a) s2 b3 hr
            constructor
            · rw [hb3, List.drop_drop, show 1 + a + s2 = (a + s2) + 1 from by omega,
                List.drop_succ_cons]
            · simp only [List.length_drop] at hs2
              simp only [List.length_cons]
              omega
        · rw [if_neg hascii] at h
          simp at h
      · rw [if_neg hle] at h
        simp at h

theorem classify_below_32_needMore (p : Option Opcodes) (buf : List Nat)
    (hlen : buf.length < 32) : classifyStep p buf = .needMore := by
  cases buf with
  | nil => simp [classifyStep]
  | cons b rest =>
    simp only [List.length_cons] at hlen
    simp only [classifyStep, List.length_cons]
    rw [if_pos hlen]

theorem classify_gwa_needMore (buf : List Nat) (h1 : buf.getD 0 0 = 1)
    (hlen : buf.length < 45) :
    classifyStep (some .GetWindowAttributes) buf = .needMore := by
  cases buf with
  | nil => simp [classifyStep]
  | cons b rest =>
    simp only [List.getD_cons_zero] at h1
    subst h1
    simp only [List.length_cons] at hlen
    simp only [classifyStep, List.length_cons]
    by_cases h32 : rest.length + 1 < 32
    · rw [if_pos h32]
    · rw [if_neg h32]
      norm_num
      simp only [processReply]
      rw [if_pos (by omega)]

theorem classify_gwa_delivered (buf : List Nat) (h1 : buf.getD 0 0 = 1)
    (hdecl : le32at buf 4 = 3) (hlen : 45 ≤ buf.length) :
    classifyStep (some .GetWindowAttributes) buf
      = .replyDelivered ((buf.drop 1).take 43) (buf.drop (32 + 4 * le32at buf 4)) := by
  cases buf with
  | nil => simp at hlen
  | cons b rest =>
    simp only [List.getD_cons_zero] at h1
    subst h1
    simp only [List.length_cons] at hlen
    rw [hdecl]
    simp only [classifyStep, List.length_cons]
    rw [if_neg (by omega)]
    norm_num
    simp only [processReply]
    rw [if_neg (by omega)]

theorem classify_qe_delivered (buf : List Nat) (h1 : buf.getD 0 0 = 1)
    (hdecl : le32at buf 4 = 0) (hlen : 32 ≤ buf.length) :
    classifyStep (some .QueryExtension) buf
      = .replyDelivered ((buf.drop 1).take 31) (buf.drop (32 + 4 * le32at buf 4)) := by
  cases buf with
  | nil => simp at hlen
  | cons b rest =>
    simp only [List.getD_cons_zero] at h1
    subst h1
    simp only [List.length_cons] at hlen
    rw [hdecl]
    simp only [classifyStep, List.length_cons]
    rw [if_neg (by omega)]
    norm_num
    simp only [processReply]
    rw [if_pos (by omega)]

theorem classify_listfonts_needMore (buf : List Nat) (h1 : buf.getD 0 0 = 1)
    (hlen : buf.length < 32 + 4 * le32at buf 4) :
    classifyStep (some .ListFonts) buf = .needMore := by
  cases buf with
  | nil => simp [classifyStep]
  | cons b rest =>
    simp only [List.getD_cons_zero] at h1
    subst h1
    simp only [List.length_cons] at hlen
    simp only [classifyStep, List.length_cons]
    by_cases h32 : rest.length + 1 < 32
    · rw [if_pos h32]
    · rw [if_neg h32]
      norm_num
      simp only [processReply, replyListFonts]
      rw [bufAdvance_eq (by omega)]
      simp only [Option.bind_eq_bind, Option.some_bind]
      rw [getU16le_eq (by simp; omega)]
      simp only [Option.some_bind]
      rw [getU32le_eq (by simp; omega)]
      simp only [Option.some_bind]
      split
      · rfl
      · next hcond =>
          exfalso
          simp [le32at, getD_drop, List.drop_drop] at hcond hlen
          omega

theorem classify_listfonts_delivered (buf : List Nat) (h1 : buf.getD 0 0 = 1)
    (hlen : 32 + 4 * le32at buf 4 ≤ buf.length) :
    classifyStep (some .ListFonts) buf
      = .replyDelivered ((buf.drop 8).take (le32at buf 4 * 4 + 24))
          (buf.drop (32 + le32at buf 4 * 4)) := by
  cases buf with
  | nil => simp [le32at] at hlen
  | cons b rest =>
    simp only [List.getD_cons_zero] at h1
    subst h1
    simp only [List.length_cons] at hlen
    simp only [classifyStep, List.length_cons]
    rw [if_neg (by simp [le32at] at hlen ⊢; omega)]
    norm_num
    simp only [processReply, replyListFonts]
    rw [bufAdvance_eq (by simp [le32at] at hlen ⊢; omega)]
    simp only [Option.bind_eq_bind, Option.some_bind]
    rw [getU16le_eq (by simp [le32at] at hlen ⊢; omega)]
    simp only [Option.some_bind]
    rw [getU32le_eq (by simp [le32at] at hlen ⊢; omega)]
    simp only [Option.some_bind]
    split
    · next hcond =>
        exfalso
        simp [le32at, getD_drop, List.drop_drop] at hcond hlen
        omega
    · next hcond =>
        simp only [getD_drop, List.drop_drop, le32at, List.getD_cons_succ]
        norm_num
        rw [drop_cons_of_pos (by omega)]
        congr 1
        omega

theorem classify_listext_needMore (buf : List Nat) (h1 : buf.getD 0 0 = 1)
    (hlen : buf.length < 32 + 4 * le32at buf 4) :
    classifyStep (some .ListExtensions) buf = .needMore := by
  cases buf with
  | nil => simp [classifyStep]
  | cons b rest =>
    simp only [List.getD_cons_zero] at h1
    subst h1
    simp only [List.length_cons] at hlen
    simp only [classifyStep, List.length_cons]
    by_cases h32 : rest.length + 1 < 32
    · rw [if_pos h32]
    · rw [if_neg h32]
      norm_num
      simp only [processReply, replyListExtensions]
      rw [getU8_eq (by omega)]
      simp only [Option.bind_eq_bind, Option.some_bind]
      rw [getU16le_eq (by simp; omega)]
      simp only [Option.some_bind]
      rw [getU32le_eq (by simp; omega)]
      simp only [Option.some_bind]
      rw [bufAdvance_eq (by simp; omega)]
      simp only [Option.some_bind]
      split
      · rfl
      · next hcond =>
          exfalso
          simp [le32at, getD_drop, List.drop_drop] at hcond hlen
          omega

theorem classify_listext_delivered (buf : List Nat) (sum : Nat) (b5 : List Nat)
    (h1 : buf.getD 0 0 = 1)
    (hread : readStrings (buf.getD 1 0) (buf.drop 32) = some (sum, b5))
    (hsum : sum + pad sum = 4 * le32at buf 4)
    (hlen : 32 + 4 * le32at buf 4 ≤ buf.length) :
    classifyStep (some .ListExtensions) buf
      = .replyDelivered (b5.take (pad sum)) (buf.drop (32 + 4 * le32at buf 4)) := by
  cases buf with
  | nil => simp [le32at] at hlen
  | cons b rest =>
    simp only [List.getD_cons_zero] at h1
    subst h1
    simp only [List.length_cons] at hlen
    simp only [List.getD_cons_succ, List.drop_succ_cons] at hread
    obtain ⟨hb5, hsumle⟩ := readStrings_drop _ _ _ _ hread
    simp only [List.length_drop] at hsumle
    simp only [classifyStep, List.length_cons]
    rw [if_neg (by simp [le32at] at hlen ⊢; omega)]
    norm_num
    simp only [processReply, replyListExtensions]
    rw [getU8_eq (by simp [le32at] at hlen ⊢; omega)]
    simp only [Option.bind_eq_bind, Option.some_bind]
    rw [getU16le_eq (by simp [le32at] at hlen ⊢; omega)]
    simp only [Option.some_bind]
    rw [getU32le_eq (by simp [le32at] at hlen ⊢; omega)]
    simp only [Option.some_bind]
    rw [bufAdvance_eq (by simp [le32at] at hlen ⊢; omega)]
    simp only [Option.some_bind]
    split
    · next hcond =>
        exfalso
        simp [le32at, getD_drop, List.drop_drop] at hcond hlen
        omega
    · next hcond =>
        have hrw : (((rest.drop 1).drop 2).drop 4).drop 24 = rest.drop 31 := by
          simp [List.drop_drop]
        rw [hrw, hread]
        show (if pad sum ≤ b5.length then
            StepOutcome.replyDelivered (List.take (pad sum) b5) (List.drop (pad sum) b5)
          else StepOutcome.fatal) = _
        have hlen5 : pad sum ≤ b5.length := by
          rw [hb5]
          simp only [List.length_drop]
          unfold pad at hsum ⊢
          simp [le32at] at hsum hlen
          omega
        rw [if_pos hlen5]
        rw [hb5, List.drop_drop, List.drop_drop, drop_cons_of_pos (by omega)]
        congr 2
        unfold pad at hsum ⊢
        simp [le32at] at hsum ⊢
        omega

/-! ### Claim about reply delivery timing -/

/-- C6: for every reply frame (first byte 1), the reader delivers the reply
to the awaiting correlation entry only after the total number of bytes of
that reply — fixed 32 plus the extended length declared in the 4-byte
length field, as determined by the registered kind — has been accumulated,
even across partial socket reads (every shorter buffer yields `needMore`),
and only then is the message sliced off the buffer (the remaining buffer
is exactly the original minus the reply's total bytes).  For
GetWindowAttributes the declared length of a well-formed reply is 3 (total
44); the code waits for one byte beyond the frame (45 buffered) before
slicing exactly 44, which still delivers only after the 44-byte total is
accumulated.  For ListExtensions the string section must be well-formed
(`readStrings` succeeds, which requires in-bounds, all-ASCII strings —
mirroring the `AsciiString::from_ascii(..).unwrap()` — and
`sum + pad sum = 4 * declared`). -/
theorem reply_delivered_only_after_declared_length :
    (∀ (p : Option Opcodes) (buf : List Nat), buf.length < 32 →
      classifyStep p buf = .needMore) ∧
    (∀ buf : List Nat, buf.getD 0 0 = 1 → buf.length < 45 →
      classifyStep (some .GetWindowAttributes) buf = .needMore) ∧
    (∀ buf : List Nat, buf.getD 0 0 = 1 → le32at buf 4 = 3 → 45 ≤ buf.length →
      classifyStep (some .GetWindowAttributes) buf
        = .replyDelivered ((buf.drop 1).take 43) (buf.drop (32 + 4 * le32at buf 4))) ∧
    (∀ buf : List Nat, buf.getD 0 0 = 1 → le32at buf 4 = 0 → 32 ≤ buf.length →
      classifyStep (some .QueryExtension) buf
        = .replyDelivered ((buf.drop 1).take 31) (buf.drop (32 + 4 * le32at buf 4))) ∧
    (∀ buf : List Nat, buf.getD 0 0 = 1 → buf.length < 32 + 4 * le32at buf 4 →
      classifyStep (some .ListFonts) buf = .needMore) ∧
    (∀ buf : List Nat, buf.getD 0 0 = 1 → 32 + 4 * le32at buf 4 ≤ buf.length →
      classifyStep (some .ListFonts) buf
        = .replyDelivered ((buf.drop 8).take (le32at buf 4 * 4 + 24))
            (buf.drop (32 + le32at buf 4 * 4))) ∧
    (∀ buf : List Nat, buf.getD 0 0 = 1 → buf.length < 32 + 4 * le32at buf 4 →
      classifyStep (some .ListExtensions) buf = .needMore) ∧
    (∀ (buf : List Nat) (sum : Nat) (b5 : List Nat), buf.getD 0 0 = 1 →
      readStrings (buf.getD 1 0) (buf.drop 32) = some (sum, b5) →
      sum + pad sum = 4 * le32at buf 4 → 32 + 4 * le32at buf 4 ≤ buf.length →
      classifyStep (some .ListExtensions) buf
        = .replyDelivered (b5.take (pad sum)) (buf.drop (32 + 4 * le32at buf 4))) :=
  ⟨classify_below_32_needMore, classify_gwa_needMore, classify_gwa_delivered,
   classify_qe_delivered, classify_listfonts_needMore, classify_listfonts_delivered,
   classify_listext_needMore,
   fun buf sum b5 h1 hread hsum hlen =>
     classify_listext_delivered buf sum b5 h1 hread hsum hlen⟩

/-- Witness for C6: concrete frames for each registered kind, a 1-byte
buffer, and a 44-byte GetWindowAttributes buffer that is still waited on. -/
theorem reply_delivered_only_after_declared_length_witness :
    (sampleGwaFrame.getD 0 0 = 1 ∧ le32at sampleGwaFrame 4 = 3 ∧
      45 ≤ sampleGwaFrame.length) ∧
    classifyStep (some .GetWindowAttributes) sampleGwaFrame
      = .replyDelivered ((sampleGwaFrame.drop 1).take 43)
          (sampleGwaFrame.drop (32 + 4 * le32at sampleGwaFrame 4)) ∧
    classifyStep (some .QueryExtension) sampleReplyFrame
      = .replyDelivered ((sampleReplyFrame.drop 1).take 31)
          (sampleReplyFrame.drop (32 + 4 * le32at sampleReplyFrame 4)) ∧
    classifyStep (some .ListFonts) sampleReplyFrame
      = .replyDelivered ((sampleReplyFrame.drop 8).take (le32at sampleReplyFrame 4 * 4 + 24))
          (sampleReplyFrame.drop (32 + le32at sampleReplyFrame 4 * 4)) ∧
    classifyStep (some .ListExtensions) sampleReplyFrame
      = .replyDelivered (([] : List Nat).take (pad 0))
          (sampleReplyFrame.drop (32 + 4 * le32at sampleReplyFrame 4)) ∧
    classifyStep (some .ListExtensions) sampleListExtFrame
      = .replyDelivered (([] : List Nat).take (pad 4))
          (sampleListExtFrame.drop (32 + 4 * le32at sampleListExtFrame 4)) ∧
    classifyStep none [1] = .needMore ∧
    classifyStep (some .GetWindowAttributes) (List.replicate 44 1) = .needMore :=
  ⟨⟨by decide, by decide, by decide⟩,
   reply_delivered_only_after_declared_length.2.2.1 sampleGwaFrame
     (by decide) (by decide) (by decide),
   reply_delivered_only_after_declared_length.2.2.2.1 sampleReplyFrame
     (by decide) (by decide) (by decide),
   reply_delivered_only_after_declared_length.2.2.2.2.2.1 sampleReplyFrame
     (by decide) (by decide),
   reply_delivered_only_after_declared_length.2.2.2.2.2.2.2 sampleReplyFrame 0 []
     (by decide) (by decide) (by decide) (by decide),
   reply_delivered_only_after_declared_length.2.2.2.2.2.2.2 sampleListExtFrame 4 []
     (by decide) (by decide) (by decide) (by decide),
   reply_delivered_only_after_declared_length.1 none [1] (by decide),
   reply_delivered_only_after_declared_length.2.1 (List.replicate 44 1)
     (by decide) (by decide)⟩

/-! ### Claims about the request encoders -/

/-- Counterexample to C2 as stated: `ShapeExtension::rectangles` writes a
request-length field of 0 yet appends 16 bytes, so the byte count is not
4 times the length field. -/
theorem shape_rectangles_length_counterexample :
    ((ShapeExtension.mk 130).rectangles 7 0 0).length = 16 ∧
    reqLenField ((ShapeExtension.mk 130).rectangles 7 0 0) = 0 ∧
    ((ShapeExtension.mk 130).rectangles 7 0 0).length ≠
      4 * reqLenField ((ShapeExtension.mk 130).rectangles 7 0 0) :=
  ⟨by decide, by decide, by decide⟩

/-- C2 (amended): every request encoder except `ShapeExtension::rectangles`
(whose length field is hard-coded to 0 while 16 bytes are appended) emits
a request whose total byte count equals 4 times the value written in its
request-length field, with variable trailers padded to a 4-byte boundary;
for `configure_window` this holds exactly when the command list has the
two entries its hard-coded value list assumes. -/
theorem request_length_field_consistent :
    (∀ (c : Connection) (s : Screen) (g : IdGenerator), g.last ≠ g.max →
      ∃ bytes id g', create_window_request c s g = some (bytes, id, g') ∧
        bytes.length = 4 * reqLenField bytes) ∧
    (∀ wid, (destroy_window_request wid).length
      = 4 * reqLenField (destroy_window_request wid)) ∧
    (∀ wid, (get_window_attributes_request wid).length
      = 4 * reqLenField (get_window_attributes_request wid)) ∧
    (∀ wid, (map_window_request wid).length
      = 4 * reqLenField (map_window_request wid)) ∧
    (∀ wid, (unmap_window_request wid).length
      = 4 * reqLenField (unmap_window_request wid)) ∧
    (∀ (wid : Nat) (cmds : List ConfigureWindowCommands) (x y : Int),
      cmds.length = 2 →
      ∃ bytes, configure_window wid cmds x y = some bytes ∧
        bytes.length = 4 * reqLenField bytes) ∧
    (∀ (c : Connection) (wid fid : Nat) (g : IdGenerator), g.last ≠ g.max →
      ∃ bytes id g', create_gc c wid fid g = some (bytes, id, g') ∧
        bytes.length = 4 * reqLenField bytes) ∧
    (∀ gid, (free_gc gid).length = 4 * reqLenField (free_gc gid)) ∧
    (list_fonts.length = 4 * reqLenField list_fonts) ∧
    (∀ name : List Nat, name.length ≤ 65535 →
      ∃ bytes, query_extension name = some bytes ∧
        bytes.length = 4 * reqLenField bytes) ∧
    (list_extensions.length = 4 * reqLenField list_extensions) ∧
    (∀ g : IdGenerator, g.last ≠ g.max →
      ∃ bytes id g', open_font g = some (bytes, id, g') ∧
        bytes.length = 4 * reqLenField bytes) ∧
    (∀ wid gid x y, (image_text_8 wid gid x y).length
      = 4 * reqLenField (image_text_8 wid gid x y)) ∧
    (∀ s : ShapeExtension, s.query_version.length
      = 4 * reqLenField s.query_version) ∧
    (∀ (s : ShapeExtension) (wid x y : Nat) (p : Option Nat),
      (s.mask wid x y p).length = 4 * reqLenField (s.mask wid x y p)) := by
  refine ⟨?_, ?_, ?_, ?_, ?_, ?_, ?_, ?_, ?_, ?_, ?_, ?_, ?_, ?_, ?_⟩
  · intro c s g hg
    unfold create_window_request
    rw [next_of_ne hg]
    refine ⟨_, _, _, rfl, ?_⟩
    simp [u16le, u32le, i16le, reqLenField, le16at, Opcodes.code]
  · intro wid
    simp [destroy_window_request, reqLenField, le16at, u16le, u32le, Opcodes.code]
  · intro wid
    simp [get_window_attributes_request, reqLenField, le16at, u16le, u32le,
      Opcodes.code]
  · intro wid
    simp [map_window_request, reqLenField, le16at, u16le, u32le, Opcodes.code]
  · intro wid
    simp [unmap_window_request, reqLenField, le16at, u16le, u32le, Opcodes.code]
  · intro wid cmds x y h
    unfold configure_window
    rw [if_pos (by omega)]
    refine ⟨_, rfl, ?_⟩
    rw [h]
    simp [u16le, u32le, i16le, reqLenField, le16at, Opcodes.code]
  · intro c wid fid g hg
    unfold create_gc
    rw [next_of_ne hg]
    refine ⟨_, _, _, rfl, ?_⟩
    simp [u16le, u32le, reqLenField, le16at, Opcodes.code]
  · intro gid
    simp [free_gc, reqLenField, le16at, u16le, u32le, Opcodes.code]
  · simp [list_fonts, reqLenField, le16at, u16le, pad, Opcodes.code]
  · intro name h
    unfold query_extension
    rw [if_pos ?hc]
    case hc =>
      refine ⟨?_, h⟩
      unfold pad
      omega
    refine ⟨_, rfl, ?_⟩
    simp [u16le, reqLenField, le16at, Opcodes.code]
    unfold pad
    omega
  · simp [list_extensions, reqLenField, le16at, u16le, Opcodes.code]
  · intro g hg
    unfold open_font
    rw [next_of_ne hg]
    refine ⟨_, _, _, rfl, ?_⟩
    simp [u16le, u32le, reqLenField, le16at, pad, Opcodes.code]
  · intro wid gid x y
    simp [image_text_8, reqLenField, le16at, u16le, u32le, pad, Opcodes.code]
  · intro s
    simp [ShapeExtension.query_version, reqLenField, le16at, u16le]
  · intro s wid x y p
    cases p <;> simp [ShapeExtension.mask, reqLenField, le16at, u16le, u32le]

/-- Witness for C2 at concrete inputs for every hypothesis-bearing clause. -/
theorem request_length_field_consistent_witness :
    (sampleGen.last ≠ sampleGen.max) ∧
    (∃ bytes id g', create_window_request sampleConnection sampleScreen sampleGen
        = some (bytes, id, g') ∧ bytes.length = 4 * reqLenField bytes) ∧
    (∃ bytes, configure_window 7
        [ConfigureWindowCommands.X 5, ConfigureWindowCommands.Y 5] 2 0
        = some bytes ∧ bytes.length = 4 * reqLenField bytes) ∧
    (∃ bytes id g', create_gc sampleConnection 7 9 sampleGen
        = some (bytes, id, g') ∧ bytes.length = 4 * reqLenField bytes) ∧
    (∃ bytes, query_extension [83, 72, 65, 80, 69] = some bytes ∧
        bytes.length = 4 * reqLenField bytes) ∧
    (∃ bytes id g', open_font sampleGen = some (bytes, id, g') ∧
        bytes.length = 4 * reqLenField bytes) :=
  ⟨by decide,
   request_length_field_consistent.1 sampleConnection sampleScreen sampleGen
     (by decide),
   request_length_field_consistent.2.2.2.2.2.1 7
     [ConfigureWindowCommands.X 5, ConfigureWindowCommands.Y 5] 2 0 rfl,
   request_length_field_consistent.2.2.2.2.2.2.1 sampleConnection 7 9 sampleGen
     (by decide),
   request_length_field_consistent.2.2.2.2.2.2.2.2.2.1 [83, 72, 65, 80, 69]
     (by decide),
   request_length_field_consistent.2.2.2.2.2.2.2.2.2.2.2.1 sampleGen
     (by decide)⟩

/-- C8: encoding a CreateWindow request and re-decoding the header fields
from the produced bytes — opcode at byte 0, request length at bytes 2-3,
window id at bytes 4-7, parent at bytes 8-11, visual id at bytes 24-27 —
yields opcode 1 (CreateWindow), the declared request length 10, the id
returned by the encoder, the screen's root window and the screen's root
visual. -/
theorem create_window_roundtrip (connection : Connection) (screen : Screen)
    (g : IdGenerator) (hg : g.last ≠ g.max) (hbase : g.base < 2 ^ 32)
    (hw : screen.window < 2 ^ 32) (hv : screen.root_visual < 2 ^ 32) :
    ∃ bytes id g', create_window_request connection screen g = some (bytes, id, g') ∧
      bytes.getD 0 0 = 1 ∧
      le16at bytes 2 = 10 ∧
      le32at bytes 4 = id ∧
      le32at bytes 8 = screen.window ∧
      le32at bytes 24 = screen.root_visual := by
  have hid : ((g.last + g.inc) % 4294967296 ||| g.base) < 4294967296 := by
    have h1 : (g.last + g.inc) % 2 ^ 32 < 2 ^ 32 := Nat.mod_lt _ (Nat.two_pow_pos 32)
    have h2 := Nat.or_lt_two_pow h1 hbase
    norm_num at h2
    exact h2
  unfold create_window_request
  rw [next_of_ne hg]
  refine ⟨_, _, _, rfl, ?_, ?_, ?_, ?_, ?_⟩
  · simp [u16le, u32le, i16le, le16at, le32at, Opcodes.code]
  · simp [u16le, u32le, i16le, le16at, le32at, Opcodes.code]
  · simp [u16le, u32le, i16le, le16at, le32at, Opcodes.code]
    omega
  · simp [u16le, u32le, i16le, le16at, le32at, Opcodes.code]
    omega
  · simp [u16le, u32le, i16le, le16at, le32at, Opcodes.code]
    omega

/-- Witness for C8 at the sample screen and generator. -/
theorem create_window_roundtrip_witness :
    (sampleGen.last ≠ sampleGen.max ∧ sampleGen.base < 2 ^ 32 ∧
      sampleScreen.window < 2 ^ 32 ∧ sampleScreen.root_visual < 2 ^ 32) ∧
    (∃ bytes id g', create_window_request sampleConnection sampleScreen sampleGen
        = some (bytes, id, g') ∧
      bytes.getD 0 0 = 1 ∧
      le16at bytes 2 = 10 ∧
      le32at bytes 4 = id ∧
      le32at bytes 8 = sampleScreen.window ∧
      le32at bytes 24 = sampleScreen.root_visual) :=
  ⟨⟨by decide, by decide, by decide, by decide⟩,
   create_window_roundtrip sampleConnection sampleScreen sampleGen
     (by decide) (by decide) (by decide) (by decide)⟩
